import Mathlib

/-!
The trace channel registry of `crypto/trace.c`.

A shallow embedding of `crypto/trace.c`: the per-category channel table, the
callback adapter (`trace_write`, `trace_puts`, `trace_ctrl`, `trace_free`) and
the `OSSL_trace_begin` / `OSSL_trace_end` bracket.

* The file-level variables `trace_channels`, `current_channel` and `trace_lock`
  are the fields of `State`; every function passes the state explicitly.
* Everything the code does to its surroundings (bytes handed to an application
  sink, calls of an application callback, releases of sinks and of text) is
  appended to `State.events`, oldest first.
* An access `trace_channels[i]` with `i` outside the array, a call through a
  null context and a `CRYPTO_THREAD_write_lock` on a lock that is already held
  have no result in C; the embedding returns a `Fault` there.  The one load
  whose value the code may never look at, the suffix in `OSSL_trace_end`,
  faults where the value is first used.
-/

namespace OsslTrace

/-! ## Data model -/

/-- The ways in which a call fails to produce a result. -/
inductive Fault
  | out_of_bounds
  | null_deref
  | blocked
  deriving DecidableEq, Repr

/-- Modelled from the spec: `include/openssl/trace.h` and `include/openssl/bio.h`
are not among the sources.  The commands that reach `trace_ctrl`: the three
phases of the callback protocol (spec section 6) and the flush request that
`BIO_flush` sends. -/
inductive Cmd
  | OSSL_TRACE_CTRL_BEGIN
  | OSSL_TRACE_CTRL_DURING
  | OSSL_TRACE_CTRL_END
  | BIO_CTRL_FLUSH
  deriving DecidableEq, Repr

/-- The `struct trace_data_st`: a callback (function pointer), the category it
was registered for, and the application's data pointer. -/
structure trace_data_st where
  callback : Nat
  category : Int
  data : Nat
  deriving DecidableEq, Repr

/-- A non-null `BIO *`.  `sink a` is a sink object of the application at address
`a`; `trace a ctx` is an object built by `BIO_new(&trace_method)` at address `a`
whose `BIO_get_data` is `ctx`. -/
inductive BIO
  | sink (addr : Nat)
  | trace (addr : Nat) (ctx : Option trace_data_st)
  deriving DecidableEq, Repr

/-- The `enum { t_channel, t_callback }` of a channel record. -/
inductive ChannelType
  | t_channel
  | t_callback
  deriving DecidableEq, Repr

/-- One entry of `trace_channels`.  The C fields are `type`, `bio`, `prefix`
and `suffix`; the third is spelled `prefix_` here. -/
structure Channel where
  type : ChannelType
  bio : Option BIO
  prefix_ : Option String
  suffix : Option String
  deriving DecidableEq, Repr

/-- One call of an application callback:
`callback(buf, num, category, cmd, data)`. -/
structure CbCall where
  callback : Nat
  buf : String
  num : Nat
  category : Int
  cmd : Cmd
  data : Nat
  deriving DecidableEq, Repr

/-- What the code does to its surroundings. -/
inductive Event
  | write (addr : Nat) (text : String)
  | ctrl (addr : Nat) (cmd : Cmd) (larg : Nat) (parg : Option String)
  | call (c : CbCall)
  | bio_free (b : BIO)
  | free_data (d : trace_data_st)
  | free_text (t : String)
  deriving DecidableEq, Repr

/-- The file-level variables of `trace.c`, and the log of effects. -/
structure State where
  trace_channels : List Channel
  current_channel : Option BIO
  trace_lock : Bool
  events : List Event
  deriving DecidableEq, Repr

instance instDecidableEqExcept {ε α : Type} [DecidableEq ε] [DecidableEq α] :
    DecidableEq (Except ε α)
  | .ok a, .ok b =>
    if h : a = b then isTrue (by rw [h]) else isFalse (fun h2 => h (Except.ok.inj h2))
  | .error a, .error b =>
    if h : a = b then isTrue (by rw [h]) else isFalse (fun h2 => h (Except.error.inj h2))
  | .ok _, .error _ => isFalse (fun h => Except.noConfusion h)
  | .error _, .ok _ => isFalse (fun h => Except.noConfusion h)

/-- The two constants of `include/openssl/trace.h` that `trace.c` uses; the
header is not among the sources, so they are parameters. -/
structure Header where
  OSSL_TRACE_CATEGORY_NUM : Int
  OSSL_TRACE_CATEGORY_ANY : Int
  deriving DecidableEq, Repr

/-- The application's callbacks: the count a call returns, given everything
that happened before it. -/
abbrev App := List Event → CbCall → Nat

/-- The array `trace_channels` has `OSSL_TRACE_CATEGORY_NUM` entries, and
`OSSL_TRACE_CATEGORY_ANY` is one of the categories. -/
def WF (H : Header) (s : State) : Prop :=
  (s.trace_channels.length : Int) = H.OSSL_TRACE_CATEGORY_NUM
    ∧ 0 ≤ H.OSSL_TRACE_CATEGORY_ANY
    ∧ H.OSSL_TRACE_CATEGORY_ANY < H.OSSL_TRACE_CATEGORY_NUM

instance (H : Header) (s : State) : Decidable (WF H s) := by
  unfold WF; infer_instance

/-- No trace block is open: the active-block slot is empty and the lock is
free. -/
def Idle (s : State) : Prop :=
  s.current_channel = none ∧ s.trace_lock = false

instance (s : State) : Decidable (Idle s) := by
  unfold Idle; infer_instance

/-! ## Access to `trace_channels` -/

/-- The entry `i` of an array of channel records, when `i` is inside it. -/
def table_at (t : List Channel) (i : Int) : Except Fault Channel :=
  if 0 ≤ i then
    match t[i.toNat]? with
    | some r => .ok r
    | none => .error .out_of_bounds
  else .error .out_of_bounds

/-- Reading `trace_channels[i]`. -/
def channel_at (s : State) (i : Int) : Except Fault Channel :=
  table_at s.trace_channels i

/-- Assigning to fields of `trace_channels[i]`: `f` is the assignment. -/
def channel_update (s : State) (i : Int) (f : Channel → Channel) : Except Fault State :=
  match channel_at s i with
  | .ok r => .ok { s with trace_channels := s.trace_channels.set i.toNat (f r) }
  | .error e => .error e

/-- Appending an effect to the log. -/
def State.emit (s : State) (e : Event) : State :=
  { s with events := s.events ++ [e] }

/-! ## The callback adapter -/

/-- The C function `strlen`, on a text that holds no NUL. -/
def strlen (t : String) : Nat := t.utf8ByteSize

/-- Modelled from the spec: `BIO_get_data` belongs to the BIO library, which is
not among the sources.  It returns the data pointer stored in the object. -/
def BIO_get_data : BIO → Option trace_data_st
  | .trace _ ctx => ctx
  | .sink _ => none

/-- Modelled from the spec: `BIO_set_data` belongs to the BIO library, which is
not among the sources.  It stores the data pointer in the object. -/
def BIO_set_data : BIO → trace_data_st → BIO
  | .trace a _, d => .trace a (some d)
  | .sink a, _ => .sink a

/-- The conversion `(int)written` of a `size_t` to a 32-bit `int`. -/
def int_of_size_t (n : Nat) : Int :=
  if n % 2 ^ 32 < 2 ^ 31 then ((n % 2 ^ 32 : Nat) : Int)
  else ((n % 2 ^ 32 : Nat) : Int) - 2 ^ 32

/-- The value of the C constant `EOF`. -/
def EOF : Int := -1

/-- The source function `trace_write`: one call of the callback in the DURING
phase.  The result is `(cnt != 0, *written)`. -/
def trace_write (app : App) (channel : BIO) (buf : String) (num : Nat) (s : State) :
    Except Fault ((Bool × Nat) × State) :=
  match BIO_get_data channel with
  | none => .error .null_deref
  | some ctx =>
    let c : CbCall := ⟨ctx.callback, buf, num, ctx.category, .OSSL_TRACE_CTRL_DURING, ctx.data⟩
    let cnt := app s.events c
    .ok ((cnt != 0, cnt), s.emit (.call c))

/-- The source function `trace_puts`. -/
def trace_puts (app : App) (channel : BIO) (str : String) (s : State) :
    Except Fault (Int × State) :=
  match trace_write app channel str (strlen str) s with
  | .error e => .error e
  | .ok ((ok, written), s1) =>
    if ok then .ok (int_of_size_t written, s1) else .ok (EOF, s1)

/-- The source function `trace_ctrl`. -/
def trace_ctrl (app : App) (channel : BIO) (cmd : Cmd) (_argl : Nat) (_argp : Option String)
    (s : State) : Except Fault (Int × State) :=
  match cmd with
  | .OSSL_TRACE_CTRL_BEGIN | .OSSL_TRACE_CTRL_END =>
    match BIO_get_data channel with
    | none => .error .null_deref
    | some ctx =>
      let c : CbCall := ⟨ctx.callback, "", 0, ctx.category, cmd, ctx.data⟩
      let _cnt := app s.events c
      .ok (1, s.emit (.call c))
  | _ => .ok (-2, s)

/-- The source function `trace_free`. -/
def trace_free (channel : Option BIO) (s : State) : Int × State :=
  match channel with
  | none => (0, s)
  | some b =>
    match BIO_get_data b with
    | none => (1, s)
    | some d => (1, s.emit (.free_data d))

/-! ## The BIO library, as far as `trace.c` calls it -/

/-- Modelled from the spec: `BIO_free` belongs to the BIO library, which is not
among the sources.  On a null pointer it does nothing; otherwise it runs the
teardown of the object's method (`trace_free` for an object built on
`trace_method`) and releases the object. -/
def BIO_free (channel : Option BIO) (s : State) : State :=
  match channel with
  | none => s
  | some (.sink a) => s.emit (.bio_free (.sink a))
  | some (.trace a ctx) =>
    (trace_free (some (.trace a ctx)) s).2.emit (.bio_free (.trace a ctx))

/-- Modelled from the spec: `BIO_puts` belongs to the BIO library, which is not
among the sources.  An application sink takes the text; an object built on
`trace_method` runs `trace_puts`.  Every caller in `trace.c` discards the
result, so only the state is returned. -/
def BIO_puts (app : App) (b : BIO) (text : String) (s : State) : Except Fault State :=
  match b with
  | .sink a => .ok (s.emit (.write a text))
  | .trace a ctx =>
    match trace_puts app (.trace a ctx) text s with
    | .ok (_, s1) => .ok s1
    | .error e => .error e

/-- Modelled from the spec: `BIO_write` belongs to the BIO library, which is not
among the sources.  It is how a caller writes the body of a trace block to the
handle that `OSSL_trace_begin` returned: an application sink takes the text, an
object built on `trace_method` runs `trace_write`. -/
def BIO_write (app : App) (b : BIO) (buf : String) (s : State) : Except Fault State :=
  match b with
  | .sink a => .ok (s.emit (.write a buf))
  | .trace a ctx =>
    match trace_write app (.trace a ctx) buf (strlen buf) s with
    | .ok (_, s1) => .ok s1
    | .error e => .error e

/-- Modelled from the spec: `BIO_ctrl` belongs to the BIO library, which is not
among the sources.  An application sink receives the command; an object built
on `trace_method` runs `trace_ctrl`.  Every caller in `trace.c` discards the
result, so only the state is returned. -/
def BIO_ctrl (app : App) (b : BIO) (cmd : Cmd) (larg : Nat) (parg : Option String)
    (s : State) : Except Fault State :=
  match b with
  | .sink a => .ok (s.emit (.ctrl a cmd larg parg))
  | .trace a ctx =>
    match trace_ctrl app (.trace a ctx) cmd larg parg s with
    | .ok (_, s1) => .ok s1
    | .error e => .error e

/-- Modelled from the spec: `BIO_flush` is the macro
`BIO_ctrl(b, BIO_CTRL_FLUSH, 0, NULL)` of the BIO library, which is not among
the sources. -/
def BIO_flush (app : App) (b : BIO) (s : State) : Except Fault State :=
  BIO_ctrl app b .BIO_CTRL_FLUSH 0 none s

/-- Modelled from the spec: `CRYPTO_THREAD_write_lock` belongs to the threads
library, which is not among the sources.  It takes the exclusive lock, and does
not return while the lock is held. -/
def CRYPTO_THREAD_write_lock (s : State) : Except Fault State :=
  if s.trace_lock then .error .blocked else .ok { s with trace_lock := true }

/-- Modelled from the spec: `CRYPTO_THREAD_unlock` belongs to the threads
library, which is not among the sources.  It releases the lock. -/
def CRYPTO_THREAD_unlock (s : State) : State :=
  { s with trace_lock := false }

/-- Modelled from the spec: `OPENSSL_strdup` belongs to the allocator, which is
not among the sources.  `ok` is the outcome of the allocation. -/
def OPENSSL_strdup (ok : Bool) (t : String) : Option String :=
  if ok then some t else none

/-- Modelled from the spec: `BIO_new` belongs to the BIO library, which is not
among the sources.  `addr` is the address of the new object, or `none` when
the allocation fails; a new object has no data. -/
def BIO_new (addr : Option Nat) : Option BIO :=
  addr.map fun a => .trace a none

/-! ## The category registry -/

/-- The `struct trace_category_st`: a category name and its number. -/
structure trace_category_st where
  name : String
  num : Int
  deriving DecidableEq, Repr

/-- The table `trace_categories`, whose one entry is `TRACE_CATEGORY_(ANY)`. -/
def trace_categories (H : Header) : List trace_category_st :=
  [⟨"ANY", H.OSSL_TRACE_CATEGORY_ANY⟩]

/-- The C function `strcasecmp` on the characters of two texts: the difference
of the first two characters that differ once both are lowered, 0 when there is
none. -/
def strcasecmp_chars : List Char → List Char → Int
  | [], [] => 0
  | [], b :: _ => -(b.toLower.toNat : Int)
  | a :: _, [] => (a.toLower.toNat : Int)
  | a :: as, b :: bs =>
    if a.toLower = b.toLower then strcasecmp_chars as bs
    else (a.toLower.toNat : Int) - (b.toLower.toNat : Int)

/-- The C function `strcasecmp`. -/
def strcasecmp (a b : String) : Int := strcasecmp_chars a.toList b.toList

/-- The source function `OSSL_trace_get_category_name`: the name of the first
entry of the table with the number `num`. -/
def OSSL_trace_get_category_name (H : Header) (num : Int) : Option String :=
  ((trace_categories H).find? fun e => e.num = num).map fun e => e.name

/-- The source function `OSSL_trace_get_category_num`: the number of the first
entry of the table whose name is `name` up to letter case, or -1. -/
def OSSL_trace_get_category_num (H : Header) (name : String) : Int :=
  match (trace_categories H).find? fun e => strcasecmp name e.name = 0 with
  | some e => e.num
  | none => -1

/-! ## The channel table -/

/-- The source function `OSSL_trace_set_channel`. -/
def OSSL_trace_set_channel (H : Header) (category : Int) (channel : Option BIO) (s : State) :
    Except Fault (Int × State) :=
  if category < 0 ∨ category ≥ H.OSSL_TRACE_CATEGORY_NUM then .ok (0, s)
  else do
    let prev_channel := (← channel_at s category).bio
    let s1 ← match prev_channel with
      | some p => channel_update (BIO_free (some p) s) category fun r => { r with bio := none }
      | none => pure s
    match channel with
    | none => pure (1, s1)
    | some b =>
      let s2 ← channel_update s1 category fun r => { r with bio := some b }
      let s3 ← channel_update s2 category fun r => { r with type := .t_channel }
      pure (1, s3)

/-- The source function `OSSL_trace_set_callback`.  `bio_new` and `zalloc_ok`
are the outcomes of the two allocations (`BIO_new` and `OPENSSL_zalloc`). -/
def OSSL_trace_set_callback (bio_new : Option Nat) (zalloc_ok : Bool)
    (category : Int) (callback : Option Nat) (data : Nat) (s : State) :
    Except Fault (Int × State) := do
  let channel := (← channel_at s category).bio
  let s1 ← match channel with
    | some p => channel_update (BIO_free (some p) s) category fun r => { r with bio := none }
    | none => pure s
  match callback with
  | none => pure (1, s1)
  | some cb =>
    match BIO_new bio_new with
    | none => pure (0, BIO_free none s1)
    | some channel =>
      if zalloc_ok then
        let trace_data : trace_data_st := ⟨cb, category, data⟩
        let channel := BIO_set_data channel trace_data
        let s2 ← channel_update s1 category fun r => { r with bio := some channel }
        let s3 ← channel_update s2 category fun r => { r with type := .t_callback }
        pure (1, s3)
      else pure (0, BIO_free (some channel) s1)

/-- The source function `OSSL_trace_set_prefix`.  `strdup_ok` is the outcome of
the allocation in `OPENSSL_strdup`. -/
def OSSL_trace_set_prefix (strdup_ok : Bool) (category : Int)
    (prefix_ : Option String) (s : State) : Except Fault (Int × State) := do
  let curr_prefix := (← channel_at s category).prefix_
  let s1 ← match curr_prefix with
    | some t => channel_update (s.emit (.free_text t)) category fun r => { r with prefix_ := none }
    | none => pure s
  match prefix_ with
  | none => pure (1, s1)
  | some t =>
    match OPENSSL_strdup strdup_ok t with
    | none => pure (0, s1)
    | some curr_prefix =>
      let s2 ← channel_update s1 category fun r => { r with prefix_ := some curr_prefix }
      pure (1, s2)

/-- The source function `OSSL_trace_set_suffix`.  `strdup_ok` is the outcome of
the allocation in `OPENSSL_strdup`. -/
def OSSL_trace_set_suffix (strdup_ok : Bool) (category : Int)
    (suffix : Option String) (s : State) : Except Fault (Int × State) := do
  let curr_suffix := (← channel_at s category).suffix
  let s1 ← match curr_suffix with
    | some t => channel_update (s.emit (.free_text t)) category fun r => { r with suffix := none }
    | none => pure s
  match suffix with
  | none => pure (1, s1)
  | some t =>
    match OPENSSL_strdup strdup_ok t with
    | none => pure (0, s1)
    | some curr_suffix =>
      let s2 ← channel_update s1 category fun r => { r with suffix := some curr_suffix }
      pure (1, s2)

/-- The source function `ossl_trace_cleanup`: `OSSL_trace_set_channel` with a
null sink for every category from 0 up, then the release of the lock object,
which changes none of the variables. -/
def ossl_trace_cleanup (H : Header) (s : State) : Except Fault State :=
  (List.range H.OSSL_TRACE_CATEGORY_NUM.toNat).foldlM
    (fun st category => do
      let (_, st') ← OSSL_trace_set_channel H (category : Int) none st
      pure st') s

/-! ## The trace session -/

/-- The source function `ossl_trace_get_category`. -/
def ossl_trace_get_category (H : Header) (category : Int) (s : State) : Except Fault Int :=
  if category < 0 ∨ category ≥ H.OSSL_TRACE_CATEGORY_NUM then pure (-1)
  else do
    if (← channel_at s category).bio ≠ none then pure category
    else pure H.OSSL_TRACE_CATEGORY_ANY

/-- The source function `OSSL_trace_enabled`. -/
def OSSL_trace_enabled (H : Header) (category : Int) (s : State) : Except Fault Bool := do
  let category ← ossl_trace_get_category H category s
  let ret := decide ((← channel_at s category).bio ≠ none)
  pure ret

/-- The source function `OSSL_trace_begin`. -/
def OSSL_trace_begin (H : Header) (app : App) (category : Int) (s : State) :
    Except Fault (Option BIO × State) := do
  let category ← ossl_trace_get_category H category s
  let channel := (← channel_at s category).bio
  let prefix_ := (← channel_at s category).prefix_
  match channel with
  | none => pure (channel, s)
  | some b =>
    let s1 ← CRYPTO_THREAD_write_lock s
    let s2 := { s1 with current_channel := channel }
    let s3 ← match (← channel_at s2 category).type with
      | .t_channel =>
        match prefix_ with
        | some p => do
          let s' ← BIO_puts app b p s2
          BIO_puts app b "\n" s'
        | none => pure s2
      | .t_callback =>
        BIO_ctrl app b .OSSL_TRACE_CTRL_BEGIN
          (match prefix_ with | none => 0 | some p => strlen p) prefix_ s2
    pure (channel, s3)

/-- The source function `OSSL_trace_end`.  `ossl_assert` is taken as in a
release build, where it is the value of its argument.  The value that the
second statement loads from `trace_channels[category].suffix` is used only
inside the `if`: `loaded` is that value, or the fault when `category` is
outside the array, and it is asked for where the `if` is entered. -/
def OSSL_trace_end (H : Header) (app : App) (category : Int) (channel : Option BIO)
    (s : State) : Except Fault State := do
  let category ← ossl_trace_get_category H category s
  let loaded := (channel_at s category).map fun r => r.suffix
  match channel with
  | none => pure s
  | some b =>
    if channel = s.current_channel then
      let suffix ← loaded
      let s1 ← BIO_flush app b s
      let s2 ← match (← channel_at s1 category).type with
        | .t_channel =>
          match suffix with
          | some t => do
            let s' ← BIO_puts app b t s1
            BIO_puts app b "\n" s'
          | none => pure s1
        | .t_callback =>
          BIO_ctrl app b .OSSL_TRACE_CTRL_END
            (match suffix with | none => 0 | some t => strlen t) suffix s1
      let s3 := { s2 with current_channel := none }
      pure (CRYPTO_THREAD_unlock s3)
    else pure s

/-- Modelled from the spec: the call sites are in the host library, which is not
among the sources.  A call site asks `OSSL_trace_begin` for a handle; on a null
handle it skips the body and the end; otherwise it writes the body texts to the
handle, in order, and calls `OSSL_trace_end` with the same category and the
handle. -/
def trace_block (H : Header) (app : App) (category : Int) (body : List String) (s : State) :
    Except Fault State := do
  let (h, s1) ← OSSL_trace_begin H app category s
  match h with
  | none => pure s1
  | some b =>
    let s2 ← body.foldlM (fun st t => BIO_write app b t st) s1
    OSSL_trace_end H app category (some b) s2

/-- The bytes that the application sink at address `a` was handed, in order. -/
def content (a : Nat) : List Event → String
  | [] => ""
  | .write b t :: es => if b = a then t ++ content a es else content a es
  | _ :: es => content a es

/-! ## Definitions used in the statements -/

/-- The `switch` that `OSSL_trace_begin` and `OSSL_trace_end` share: a direct
channel gets the text and a newline when there is a text, a callback channel
gets the control command `cmd`. -/
def emit_line (app : App) (ty : ChannelType) (b : BIO) (cmd : Cmd) (text : Option String)
    (s : State) : Except Fault State :=
  match ty with
  | .t_channel =>
    match text with
    | some p => (BIO_puts app b p s) >>= (BIO_puts app b "\n")
    | none => .ok s
  | .t_callback =>
    BIO_ctrl app b cmd (match text with | none => 0 | some p => strlen p) text s

/-- The writes that hand a line of text to the application sink at `a`. -/
def line_events (a : Nat) : Option String → List Event
  | some p => [.write a p, .write a "\n"]
  | none => []

/-- The text of an optional line: the text and a newline, or nothing. -/
def line_text : Option String → String
  | some p => p ++ "\n"
  | none => ""

/-- The phases with which callbacks were invoked, in order. -/
def phases : List Event → List Cmd
  | [] => []
  | .call c :: es => c.cmd :: phases es
  | _ :: es => phases es

/-- The callback call that `trace_ctrl` makes for the command `cmd`. -/
def ctrl_call (ctx : trace_data_st) (cmd : Cmd) : CbCall :=
  ⟨ctx.callback, "", 0, ctx.category, cmd, ctx.data⟩

/-- The callback call that `trace_write` makes for the body text `t`. -/
def during_call (ctx : trace_data_st) (t : String) : CbCall :=
  ⟨ctx.callback, t, strlen t, ctx.category, .OSSL_TRACE_CTRL_DURING, ctx.data⟩

/-- The sink stored for category `i`: the field `trace_channels[i].bio`, when
`i` is inside the array. -/
def sink_of (s : State) (i : Int) : Option BIO :=
  match channel_at s i with
  | .ok r => r.bio
  | .error _ => none

/-- The handle is usable: an application sink, or an object built on
`trace_method` that holds its callback context. -/
def usable : BIO → Prop
  | .sink _ => True
  | .trace _ ctx => ctx ≠ none

/-- The record that `OSSL_trace_set_channel` leaves in the slot of an
in-range category whose record was `r`. -/
def set_channel_record (r : Channel) : Option BIO → Channel
  | some b => { r with bio := some b, type := .t_channel }
  | none => { r with bio := none }

/-- The record that `OSSL_trace_set_callback` leaves in the slot of a category
whose record was `r`: the adapter in callback mode when a callback is given and
both allocations succeed, an empty sink slot otherwise. -/
def set_callback_record (r : Channel) (bio_new : Option Nat) (zalloc_ok : Bool)
    (category : Int) (callback : Option Nat) (data : Nat) : Channel :=
  match callback, bio_new, zalloc_ok with
  | some cb, some a, true =>
    { r with bio := some (.trace a (some ⟨cb, category, data⟩)), type := .t_callback }
  | _, _, _ => { r with bio := none }

/-- The value that `OSSL_trace_set_callback` returns: 0 when a callback is
given and an allocation fails, 1 otherwise. -/
def set_callback_result (bio_new : Option Nat) (zalloc_ok : Bool) (callback : Option Nat) :
    Int :=
  match callback, bio_new, zalloc_ok with
  | some _, none, _ => 0
  | some _, some _, false => 0
  | _, _, _ => 1

/-- The releases on the error path of `OSSL_trace_set_callback`: the new
object, when it was allocated and its context was not. -/
def set_callback_undo (bio_new : Option Nat) (zalloc_ok : Bool) (callback : Option Nat) :
    List Event :=
  match callback, bio_new, zalloc_ok with
  | some _, some a, false => [.bio_free (.trace a none)]
  | _, _, _ => []

/-- The text that `OSSL_trace_set_prefix` and `OSSL_trace_set_suffix` leave
stored: the duplicate of the text given, when one is given and the duplication
succeeds. -/
def stored_text (strdup_ok : Bool) (text : Option String) : Option String :=
  match text with
  | some t => if strdup_ok then some t else none
  | none => none

/-- The value that `OSSL_trace_set_prefix` and `OSSL_trace_set_suffix` return:
0 when a text is given and its duplication fails, 1 otherwise. -/
def set_text_result (strdup_ok : Bool) (text : Option String) : Int :=
  match text with
  | some _ => if strdup_ok then 1 else 0
  | none => 1

/-- The release of a stored text, when there is one. -/
def free_text_events : Option String → List Event
  | some t => [.free_text t]
  | none => []

/-- The text stored as prefix for category `i`: the field
`trace_channels[i].prefix`, when `i` is inside the array. -/
def prefix_of (s : State) (i : Int) : Option String :=
  match channel_at s i with
  | .ok r => r.prefix_
  | .error _ => none

/-- The text stored as suffix for category `i`: the field
`trace_channels[i].suffix`, when `i` is inside the array. -/
def suffix_of (s : State) (i : Int) : Option String :=
  match channel_at s i with
  | .ok r => r.suffix
  | .error _ => none

/-- The type stored for category `i`: the field `trace_channels[i].type`, when
`i` is inside the array. -/
def type_of (s : State) (i : Int) : Option ChannelType :=
  match channel_at s i with
  | .ok r => some r.type
  | .error _ => none

/-- The texts released so far, in order. -/
def freed_texts : List Event → List String
  | [] => []
  | .free_text t :: es => t :: freed_texts es
  | _ :: es => freed_texts es

/-- The text holds no NUL character, as every C string does before its
terminator. -/
def no_nul (t : String) : Prop := ∀ c ∈ t.toList, c.toNat ≠ 0

/-- The spec's "equal up to ASCII letter case": the two texts have the same
characters once the letters `A` to `Z` are replaced by `a` to `z`. -/
def eq_ignoring_case (a b : String) : Prop :=
  a.toList.map Char.toLower = b.toList.map Char.toLower

instance (a b : String) : Decidable (eq_ignoring_case a b) := by
  unfold eq_ignoring_case; infer_instance

instance (t : String) : Decidable (no_nul t) := by
  unfold no_nul; infer_instance

/-- The calls that the facility offers, with their arguments and, for the
calls that allocate, the answers of the allocator. -/
inductive Op
  | set_sink (category : Int) (channel : Option BIO)
  | set_callback (bio_new : Option Nat) (zalloc_ok : Bool) (category : Int)
      (callback : Option Nat) (data : Nat)
  | set_pre (strdup_ok : Bool) (category : Int) (text : Option String)
  | set_suf (strdup_ok : Bool) (category : Int) (text : Option String)
  | begin_block (category : Int)
  | end_block (category : Int) (channel : Option BIO)
  deriving DecidableEq, Repr

/-- The state after one call, when the call returns. -/
def step (H : Header) (app : App) (op : Op) (s : State) : Except Fault State :=
  match op with
  | .set_sink c ch => (OSSL_trace_set_channel H c ch s).map fun r => r.2
  | .set_callback bn z c cb d => (OSSL_trace_set_callback bn z c cb d s).map fun r => r.2
  | .set_pre ok c t => ( OSSL_trace_set_prefix ok c t s).map fun r => r.2
  | .set_suf ok c t => ( OSSL_trace_set_suffix ok c t s).map fun r => r.2
  | .begin_block c => (OSSL_trace_begin H app c s).map fun r => r.2
  | .end_block c h => OSSL_trace_end H app c h s

/-- The state before any call: the zero-initialised array `trace_channels`,
no active block, the lock free, nothing done yet. -/
def init_state (H : Header) : State :=
  ⟨List.replicate H.OSSL_TRACE_CATEGORY_NUM.toNat ⟨.t_channel, none, none, none⟩,
    none, false, []⟩

/-- The states that sequences of calls reach from the initial state while every
call returns in the embedding: a call that faults (an access outside
`trace_channels`, as the setters without a range check make for a category
outside the range) or that blocks on the lock leads to no state here, so these
are the states reached by calls that stay inside the table. -/
inductive Reachable (H : Header) (app : App) : State → Prop
  | init : Reachable H app (init_state H)
  | step (op : Op) (s s' : State) :
      Reachable H app s → step H app op s = .ok s' → Reachable H app s'

/-- The states after a sequence of calls, in order. -/
def run (H : Header) (app : App) (ops : List Op) (s : State) : Except Fault State :=
  ops.foldlM (fun st op => step H app op st) s

/-- The effects of `BIO_free` on a sink: the release of its callback context,
when it has one, and the release of the sink. -/
def release_events : BIO → List Event
  | .sink a => [.bio_free (.sink a)]
  | .trace a none => [.bio_free (.trace a none)]
  | .trace a (some d) => [.free_data d, .bio_free (.trace a (some d))]

/-- How many times the sink `b` is released in a list of effects. -/
def released (b : BIO) (es : List Event) : Nat :=
  es.count (.bio_free b)

/-- The call left everything but the record of category `c` as it was: the
record of every other category, the active-block slot and the lock. -/
def unchanged_outside (c : Int) (s s' : State) : Prop :=
  (∀ j, j ≠ c → channel_at s' j = channel_at s j)
    ∧ s'.current_channel = s.current_channel
    ∧ s'.trace_lock = s.trace_lock

/-! ## Sample configurations -/

/-- Two categories, the first of them `ANY`. -/
def H1 : Header := ⟨2, 0⟩

/-- A callback behaviour that accepts every byte it is handed. -/
def app0 : App := fun _ c => c.num

/-- Category 1 has a direct sink with a prefix and a suffix; `ANY` is not
configured. -/
def st1 : State :=
  ⟨[⟨.t_channel, none, none, none⟩,
    ⟨.t_channel, some (.sink 7), some "[TRACE]", some "[END]"⟩], none, false, []⟩

/-- A callback channel on category 1, with a prefix and a suffix. -/
def st2 : State :=
  ⟨[⟨.t_channel, none, none, none⟩,
    ⟨.t_callback, some (.trace 9 (some ⟨3, 1, 5⟩)), some "[TRACE]", some "[END]"⟩], none, false, []⟩

/-- Category 1 is not configured and has texts of its own; `ANY` has a direct
sink with a prefix. -/
def st3 : State :=
  ⟨[⟨.t_channel, some (.sink 4), some "any:", none⟩,
    ⟨.t_callback, none, some "own:", some "own."⟩], none, false, []⟩

/-- A callback that claims to have taken 4294967295 bytes, whatever it is
handed. -/
def app_big : App := fun _ _ => 4294967295

/-- The state after a direct sink is set for category 1 and a block is opened
on it. -/
def st_open : State :=
  ⟨[⟨.t_channel, none, none, none⟩, ⟨.t_channel, some (.sink 7), none, none⟩],
    some (.sink 7), true, []⟩

/-- Both categories hold the sink at address 4. -/
def st4 : State :=
  ⟨[⟨.t_channel, some (.sink 4), none, none⟩,
    ⟨.t_channel, some (.sink 4), some "p", some "q"⟩], none, false, []⟩

/-! ## Basic facts -/

@[simp] theorem bind_ok {α β : Type} (a : α) (f : α → Except Fault β) :
    (Except.ok a >>= f) = f a := rfl

@[simp] theorem bind_error {α β : Type} (e : Fault) (f : α → Except Fault β) :
    ((Except.error e : Except Fault α) >>= f) = Except.error e := rfl

@[simp] theorem pure_eq_ok {α : Type} (a : α) : (pure a : Except Fault α) = Except.ok a := rfl

theorem channel_at_congr {s t : State} (h : t.trace_channels = s.trace_channels) (i : Int) :
    channel_at t i = channel_at s i := by
  simp [channel_at, h]

theorem table_at_neg (t : List Channel) {i : Int} (h : i < 0) :
    table_at t i = .error .out_of_bounds := by
  simp [table_at, not_le.mpr h]

theorem table_at_ge (t : List Channel) {i : Int} (h : (t.length : Int) ≤ i) :
    table_at t i = .error .out_of_bounds := by
  unfold table_at
  split
  · have h2 : t.length ≤ i.toNat := by omega
    simp [List.getElem?_eq_none h2]
  · rfl

theorem table_at_in_range (t : List Channel) {i : Int} (h0 : 0 ≤ i)
    (h1 : i < (t.length : Int)) : ∃ r, table_at t i = .ok r := by
  have h2 : i.toNat < t.length := by omega
  exact ⟨t[i.toNat], by simp [table_at, h0, List.getElem?_eq_getElem h2]⟩

theorem content_append (a : Nat) (xs ys : List Event) :
    content a (xs ++ ys) = content a xs ++ content a ys := by
  induction xs with
  | nil => simp [content]
  | cons e es ih =>
    cases e <;> simp [content, ih]
    split <;> simp [String.append_assoc]

theorem get_category_own (H : Header) (s : State) (c : Int) (r : Channel) (b : BIO)
    (h0 : 0 ≤ c) (h1 : c < H.OSSL_TRACE_CATEGORY_NUM)
    (hr : channel_at s c = .ok r) (hb : r.bio = some b) :
    ossl_trace_get_category H c s = .ok c := by
  have hg : ¬ (c < 0 ∨ c ≥ H.OSSL_TRACE_CATEGORY_NUM) := by omega
  simp [ossl_trace_get_category, hg, hr, hb]

theorem get_category_fallback (H : Header) (s : State) (c : Int) (r : Channel)
    (h0 : 0 ≤ c) (h1 : c < H.OSSL_TRACE_CATEGORY_NUM)
    (hr : channel_at s c = .ok r) (hb : r.bio = none) :
    ossl_trace_get_category H c s = .ok H.OSSL_TRACE_CATEGORY_ANY := by
  have hg : ¬ (c < 0 ∨ c ≥ H.OSSL_TRACE_CATEGORY_NUM) := by omega
  simp [ossl_trace_get_category, hg, hr, hb]

theorem get_category_invalid (H : Header) (s : State) (c : Int)
    (h : c < 0 ∨ c ≥ H.OSSL_TRACE_CATEGORY_NUM) :
    ossl_trace_get_category H c s = .ok (-1) := by
  simp [ossl_trace_get_category, h]

theorem begin_of_resolved (H : Header) (app : App) (s : State) (c k : Int) (r : Channel)
    (hcat : ossl_trace_get_category H c s = .ok k) (hr : channel_at s k = .ok r) :
    OSSL_trace_begin H app c s =
      (match r.bio with
      | none => .ok (none, s)
      | some b =>
        if s.trace_lock then .error .blocked
        else
          (emit_line app r.type b .OSSL_TRACE_CTRL_BEGIN r.prefix_
            { s with trace_lock := true, current_channel := some b }) >>=
            fun s3 => .ok (some b, s3)) := by
  unfold channel_at at hr
  obtain ⟨ty, bio, P, S⟩ := r
  cases bio with
  | none => simp [OSSL_trace_begin, hcat, channel_at, hr]
  | some b =>
    cases hl : s.trace_lock
    · cases ty <;> cases P <;>
        simp [OSSL_trace_begin, hcat, channel_at, hr, CRYPTO_THREAD_write_lock, hl, emit_line]
    · simp [OSSL_trace_begin, hcat, channel_at, hr, CRYPTO_THREAD_write_lock, hl]

theorem BIO_ctrl_table (app : App) (b : BIO) (cmd : Cmd) (l : Nat) (p : Option String)
    (s s' : State) (h : BIO_ctrl app b cmd l p s = .ok s') :
    s'.trace_channels = s.trace_channels ∧ s'.current_channel = s.current_channel
      ∧ s'.trace_lock = s.trace_lock := by
  cases b with
  | sink a =>
    simp [BIO_ctrl, State.emit] at h
    subst h
    simp
  | trace a ctx =>
    cases ctx <;> cases cmd <;> simp [BIO_ctrl, trace_ctrl, BIO_get_data, State.emit] at h <;>
      subst h <;> simp

theorem end_of_resolved (H : Header) (app : App) (s : State) (c k : Int) (r : Channel)
    (hcat : ossl_trace_get_category H c s = .ok k) (hr : channel_at s k = .ok r)
    (h : Option BIO) :
    OSSL_trace_end H app c h s =
      (match h with
      | none => .ok s
      | some b =>
        if some b = s.current_channel then
          (BIO_flush app b s >>= emit_line app r.type b .OSSL_TRACE_CTRL_END r.suffix) >>=
            fun s2 => .ok { s2 with current_channel := none, trace_lock := false }
        else .ok s) := by
  cases h with
  | none => simp [OSSL_trace_end, hcat]
  | some b =>
    by_cases hcur : some b = s.current_channel
    · simp only [OSSL_trace_end, hcat, hr, bind_ok, hcur, if_true, Except.map]
      cases hf : BIO_flush app b s with
      | error e => simp
      | ok s1 =>
        have ht := (BIO_ctrl_table app b _ _ _ s s1 hf).1
        have hr1 : channel_at s1 k = .ok r := by rw [channel_at_congr ht]; exact hr
        obtain ⟨ty, bio, P, S⟩ := r
        cases ty <;> cases S <;>
          simp [hr1, emit_line, CRYPTO_THREAD_unlock]
    · simp [OSSL_trace_end, hcat, hcur]
theorem get_category_congr (H : Header) {s t : State}
    (h : t.trace_channels = s.trace_channels) (c : Int) :
    ossl_trace_get_category H c t = ossl_trace_get_category H c s := by
  simp [ossl_trace_get_category, channel_at, h]

theorem emit_line_direct (app : App) (a : Nat) (cmd : Cmd) (text : Option String) (s : State) :
    emit_line app .t_channel (.sink a) cmd text s
      = .ok { s with events := s.events ++ line_events a text } := by
  cases text <;> simp [emit_line, BIO_puts, State.emit, line_events]

theorem begin_direct (H : Header) (app : App) (s : State) (c k : Int) (a : Nat)
    (P S : Option String)
    (hcat : ossl_trace_get_category H c s = .ok k)
    (hr : channel_at s k = .ok ⟨.t_channel, some (.sink a), P, S⟩)
    (hlock : s.trace_lock = false) :
    OSSL_trace_begin H app c s
      = .ok (some (.sink a),
          { s with trace_lock := true, current_channel := some (.sink a),
                   events := s.events ++ line_events a P }) := by
  rw [begin_of_resolved H app s c k _ hcat hr]
  simp [hlock, emit_line_direct]

theorem end_direct (H : Header) (app : App) (s : State) (c k : Int) (a : Nat)
    (P S : Option String)
    (hcat : ossl_trace_get_category H c s = .ok k)
    (hr : channel_at s k = .ok ⟨.t_channel, some (.sink a), P, S⟩)
    (hcur : s.current_channel = some (.sink a)) :
    OSSL_trace_end H app c (some (.sink a)) s
      = .ok { s with trace_lock := false, current_channel := none,
                     events := s.events ++ .ctrl a .BIO_CTRL_FLUSH 0 none :: line_events a S } := by
  rw [end_of_resolved H app s c k _ hcat hr]
  simp [hcur, emit_line_direct, BIO_flush, BIO_ctrl, State.emit]

/-- C1. A bracket on a category with a direct sink, with one body text `B`,
started Idle on an empty sink, leaves in the sink the prefix and a newline
(when a prefix is set), then `B`, then the suffix and a newline (when a suffix
is set). -/
theorem direct_block_content (H : Header) (app : App) (s : State) (c : Int) (a : Nat)
    (P S : Option String) (B : String)
    (h0 : 0 ≤ c) (h1 : c < H.OSSL_TRACE_CATEGORY_NUM)
    (hidle : Idle s)
    (hr : channel_at s c = .ok ⟨.t_channel, some (.sink a), P, S⟩)
    (hempty : content a s.events = "") :
    ∃ s', trace_block H app c [B] s = .ok s'
      ∧ content a s'.events
          = line_text P ++ B ++ line_text S := by
  have hcat := get_category_own H s c _ _ h0 h1 hr rfl
  obtain ⟨hcur, hlock⟩ := hidle
  have hb := begin_direct H app s c c a P S hcat hr hlock
  let s2 : State := { s with trace_lock := true, current_channel := some (.sink a),
                             events := s.events ++ line_events a P ++ [.write a B] }
  have he := end_direct H app s2 c c a P S
    ((get_category_congr H (s := s) (t := s2) rfl c).trans hcat)
    ((channel_at_congr (s := s) (t := s2) rfl c).trans hr) rfl
  have hrun : trace_block H app c [B] s = OSSL_trace_end H app c (some (.sink a)) s2 := by
    simp only [trace_block, hb, bind_ok, List.foldlM, BIO_write, State.emit, s2]
    rfl
  refine ⟨_, hrun.trans he, ?_⟩
  cases P <;> cases S <;>
    simp [s2, content_append, content, line_events, line_text, hempty, String.append_assoc]

theorem direct_block_content_witness :
    ∃ s', trace_block H1 app0 1 ["hello"] st1 = .ok s'
      ∧ content 7 s'.events = "[TRACE]\nhello[END]\n" :=
  direct_block_content H1 app0 st1 1 7 (some "[TRACE]") (some "[END]") "hello"
    (by decide) (by decide) (by decide) (by rfl) (by rfl)
theorem phases_append (xs ys : List Event) : phases (xs ++ ys) = phases xs ++ phases ys := by
  induction xs with
  | nil => simp [phases]
  | cons e es ih => cases e <;> simp [phases, ih]

theorem phases_during (ctx : trace_data_st) (body : List String) :
    phases (body.map fun t => Event.call (during_call ctx t))
      = List.replicate body.length Cmd.OSSL_TRACE_CTRL_DURING := by
  induction body with
  | nil => rfl
  | cons t ts ih =>
    show (during_call ctx t).cmd :: phases (ts.map fun t => Event.call (during_call ctx t)) = _
    rw [ih]
    rfl

theorem emit_line_callback (app : App) (a : Nat) (ctx : trace_data_st) (cmd : Cmd)
    (hcmd : cmd = .OSSL_TRACE_CTRL_BEGIN ∨ cmd = .OSSL_TRACE_CTRL_END)
    (text : Option String) (s : State) :
    emit_line app .t_callback (.trace a (some ctx)) cmd text s
      = .ok { s with events := s.events ++ [.call (ctrl_call ctx cmd)] } := by
  rcases hcmd with h | h <;> subst h <;>
    simp [emit_line, BIO_ctrl, trace_ctrl, BIO_get_data, State.emit, ctrl_call]

theorem BIO_write_callback (app : App) (a : Nat) (ctx : trace_data_st) (t : String)
    (s : State) :
    BIO_write app (.trace a (some ctx)) t s = .ok (s.emit (.call (during_call ctx t))) := rfl

theorem body_writes_callback (app : App) (a : Nat) (ctx : trace_data_st) (body : List String)
    (s : State) :
    body.foldlM (fun st t => BIO_write app (.trace a (some ctx)) t st) s
      = .ok { s with events := s.events ++ body.map fun t => .call (during_call ctx t) } := by
  induction body generalizing s with
  | nil => simp [List.foldlM]
  | cons t ts ih =>
    simp only [List.foldlM_cons]
    rw [BIO_write_callback, bind_ok, ih]
    simp [State.emit]

/-- C2. A bracket on a category with a callback sink invokes the callback once
in the BEGIN phase, then once in the DURING phase for each body write, in
order, then once in the END phase, and produces no other effect: the flush in
`OSSL_trace_end` does not reach the callback. -/
theorem callback_block_phases (H : Header) (app : App) (s : State) (c : Int) (a : Nat)
    (ctx : trace_data_st) (P S : Option String) (body : List String)
    (h0 : 0 ≤ c) (h1 : c < H.OSSL_TRACE_CATEGORY_NUM)
    (hlock : s.trace_lock = false)
    (hr : channel_at s c = .ok ⟨.t_callback, some (.trace a (some ctx)), P, S⟩) :
    ∃ s', trace_block H app c body s = .ok s'
      ∧ s'.events = s.events
          ++ (.call (ctrl_call ctx .OSSL_TRACE_CTRL_BEGIN)
              :: (body.map fun t => Event.call (during_call ctx t))
              ++ [.call (ctrl_call ctx .OSSL_TRACE_CTRL_END)])
      ∧ phases (s'.events.drop s.events.length)
          = .OSSL_TRACE_CTRL_BEGIN :: List.replicate body.length .OSSL_TRACE_CTRL_DURING
              ++ [.OSSL_TRACE_CTRL_END] := by
  have hcat := get_category_own H s c _ _ h0 h1 hr rfl
  have hb : OSSL_trace_begin H app c s
      = .ok (some (.trace a (some ctx)),
          { s with trace_lock := true, current_channel := some (.trace a (some ctx)),
                   events := s.events ++ [.call (ctrl_call ctx .OSSL_TRACE_CTRL_BEGIN)] }) := by
    rw [begin_of_resolved H app s c c _ hcat hr]
    simp [hlock, emit_line_callback]
  let s2 : State :=
    { s with trace_lock := true, current_channel := some (.trace a (some ctx)),
             events := s.events ++ [.call (ctrl_call ctx .OSSL_TRACE_CTRL_BEGIN)]
               ++ body.map fun t => .call (during_call ctx t) }
  have he : OSSL_trace_end H app c (some (.trace a (some ctx))) s2
      = .ok { s2 with trace_lock := false, current_channel := none,
                      events := s2.events ++ [.call (ctrl_call ctx .OSSL_TRACE_CTRL_END)] } := by
    rw [end_of_resolved H app s2 c c _
      ((get_category_congr H (s := s) (t := s2) rfl c).trans hcat)
      ((channel_at_congr (s := s) (t := s2) rfl c).trans hr)]
    simp [s2, BIO_flush, BIO_ctrl, trace_ctrl, emit_line_callback]
  have hrun : trace_block H app c body s
      = OSSL_trace_end H app c (some (.trace a (some ctx))) s2 := by
    simp only [trace_block, hb, bind_ok, body_writes_callback, s2]
  refine ⟨_, hrun.trans he, ?_, ?_⟩
  · simp [s2]
  · simp [s2, phases_append, phases, phases_during, ctrl_call]

theorem callback_block_phases_witness :
    ∃ s', trace_block H1 app0 1 ["he", "llo"] st2 = .ok s'
      ∧ s'.events = st2.events
          ++ (.call (ctrl_call ⟨3, 1, 5⟩ .OSSL_TRACE_CTRL_BEGIN)
              :: (["he", "llo"].map fun t => Event.call (during_call ⟨3, 1, 5⟩ t))
              ++ [.call (ctrl_call ⟨3, 1, 5⟩ .OSSL_TRACE_CTRL_END)])
      ∧ phases (s'.events.drop st2.events.length)
          = [.OSSL_TRACE_CTRL_BEGIN, .OSSL_TRACE_CTRL_DURING, .OSSL_TRACE_CTRL_DURING,
              .OSSL_TRACE_CTRL_END] :=
  callback_block_phases H1 app0 st2 1 9 ⟨3, 1, 5⟩ (some "[TRACE]") (some "[END]") ["he", "llo"]
    (by decide) (by decide) rfl rfl
theorem channel_at_of_WF (H : Header) (s : State) (hwf : WF H s) {i : Int} (h0 : 0 ≤ i)
    (h1 : i < H.OSSL_TRACE_CATEGORY_NUM) : ∃ r, channel_at s i = .ok r :=
  table_at_in_range s.trace_channels h0 (by rw [hwf.1]; exact h1)

theorem enabled_of_resolved (H : Header) (s : State) (c k : Int) (r : Channel)
    (hcat : ossl_trace_get_category H c s = .ok k) (hr : channel_at s k = .ok r) :
    OSSL_trace_enabled H c s = .ok (decide (r.bio ≠ none)) := by
  simp [OSSL_trace_enabled, hcat, hr]

theorem resolved_in_range (H : Header) (s : State) (hwf : WF H s) (c : Int) (h0 : 0 ≤ c)
    (h1 : c < H.OSSL_TRACE_CATEGORY_NUM) :
    ∃ k r, ossl_trace_get_category H c s = .ok k ∧ channel_at s k = .ok r
      ∧ (r.bio = none ↔ sink_of s c = none ∧ sink_of s H.OSSL_TRACE_CATEGORY_ANY = none) := by
  obtain ⟨r, hr⟩ := channel_at_of_WF H s hwf h0 h1
  obtain ⟨rA, hrA⟩ := channel_at_of_WF H s hwf hwf.2.1 hwf.2.2
  cases hb : r.bio with
  | some b =>
    exact ⟨c, r, get_category_own H s c r b h0 h1 hr hb, hr, by simp [sink_of, hr, hb]⟩
  | none =>
    exact ⟨_, rA, get_category_fallback H s c r h0 h1 hr hb, hrA, by simp [sink_of, hr, hrA, hb]⟩

theorem begin_handle (H : Header) (app : App) (s : State) (c k : Int) (r : Channel)
    (hcat : ossl_trace_get_category H c s = .ok k) (hr : channel_at s k = .ok r)
    (h : Option BIO) (s' : State) (hbeg : OSSL_trace_begin H app c s = .ok (h, s')) :
    h = r.bio ∧ (h = none → s' = s) := by
  rw [begin_of_resolved H app s c k r hcat hr] at hbeg
  cases hb : r.bio with
  | none =>
    simp [hb] at hbeg
    simp [hbeg.1, hbeg.2]
  | some b =>
    simp only [hb] at hbeg
    split at hbeg
    · cases hbeg
    · cases he : emit_line app r.type b .OSSL_TRACE_CTRL_BEGIN r.prefix_
          { s with trace_lock := true, current_channel := some b } with
      | error e => simp [he] at hbeg
      | ok s3 =>
        simp [he] at hbeg
        simp [← hbeg.1]

/-- C3. For an in-range category, `OSSL_trace_begin` returns a null handle
exactly when `OSSL_trace_enabled` is false, that is when neither the category
nor `ANY` has a sink; and then it returns the state it was given: the lock,
the active-block slot, the table and the log of effects are unchanged. -/
theorem begin_null_iff_disabled (H : Header) (app : App) (s : State) (c : Int)
    (hwf : WF H s) (h0 : 0 ≤ c) (h1 : c < H.OSSL_TRACE_CATEGORY_NUM) :
    ((∃ s', OSSL_trace_begin H app c s = .ok (none, s')) ↔ OSSL_trace_enabled H c s = .ok false)
      ∧ (OSSL_trace_enabled H c s = .ok false
          ↔ sink_of s c = none ∧ sink_of s H.OSSL_TRACE_CATEGORY_ANY = none)
      ∧ (∀ s', OSSL_trace_begin H app c s = .ok (none, s') → s' = s) := by
  obtain ⟨k, r, hcat, hr, hnone⟩ := resolved_in_range H s hwf c h0 h1
  have hen := enabled_of_resolved H s c k r hcat hr
  have hen' : OSSL_trace_enabled H c s = .ok false ↔ r.bio = none := by
    rw [hen]; simp
  refine ⟨?_, hen'.trans hnone, ?_⟩
  · rw [hen']
    constructor
    · rintro ⟨s', hs'⟩
      exact (begin_handle H app s c k r hcat hr none s' hs').1.symm
    · intro hb
      refine ⟨s, ?_⟩
      rw [begin_of_resolved H app s c k r hcat hr, hb]
  · intro s' hs'
    exact (begin_handle H app s c k r hcat hr none s' hs').2 rfl

theorem begin_null_iff_disabled_witness :
    ((∃ s', OSSL_trace_begin H1 app0 0 st1 = .ok (none, s'))
        ↔ OSSL_trace_enabled H1 0 st1 = .ok false)
      ∧ (OSSL_trace_enabled H1 0 st1 = .ok false
          ↔ sink_of st1 0 = none ∧ sink_of st1 H1.OSSL_TRACE_CATEGORY_ANY = none)
      ∧ (∀ s', OSSL_trace_begin H1 app0 0 st1 = .ok (none, s') → s' = st1) :=
  begin_null_iff_disabled H1 app0 st1 0 (by decide) (by decide) (by decide)
theorem BIO_puts_callback (app : App) (a : Nat) (ctx : trace_data_st) (t : String)
    (s : State) :
    BIO_puts app (.trace a (some ctx)) t s = .ok (s.emit (.call (during_call ctx t))) := by
  simp only [BIO_puts, trace_puts, trace_write, BIO_get_data]
  by_cases h : (app s.events ⟨ctx.callback, t, strlen t, ctx.category,
      .OSSL_TRACE_CTRL_DURING, ctx.data⟩ != 0) = true
  · rw [if_pos h]; rfl
  · rw [if_neg h]; rfl

theorem emit_line_usable (app : App) (ty : ChannelType) (b : BIO) (cmd : Cmd)
    (text : Option String) (s : State) (hb : usable b) :
    ∃ s', emit_line app ty b cmd text s = .ok s' := by
  cases b with
  | sink a => cases ty <;> cases text <;> simp [emit_line, BIO_puts, BIO_ctrl]
  | trace a ctx =>
    cases ctx with
    | none => exact absurd rfl hb
    | some d =>
      cases ty <;> cases text <;> cases cmd <;>
        simp [emit_line, BIO_puts_callback, BIO_ctrl, trace_ctrl, BIO_get_data]

theorem BIO_puts_frame (app : App) (b : BIO) (t : String) (s s' : State)
    (h : BIO_puts app b t s = .ok s') :
    s'.trace_channels = s.trace_channels ∧ s'.current_channel = s.current_channel
      ∧ s'.trace_lock = s.trace_lock := by
  cases b with
  | sink a =>
    simp only [BIO_puts, Except.ok.injEq] at h
    subst h
    exact ⟨rfl, rfl, rfl⟩
  | trace a ctx =>
    cases ctx with
    | none => cases h
    | some d =>
      rw [BIO_puts_callback, Except.ok.injEq] at h
      subst h
      exact ⟨rfl, rfl, rfl⟩

theorem emit_line_frame (app : App) (ty : ChannelType) (b : BIO) (cmd : Cmd)
    (text : Option String) (s s' : State) (h : emit_line app ty b cmd text s = .ok s') :
    s'.trace_channels = s.trace_channels ∧ s'.current_channel = s.current_channel
      ∧ s'.trace_lock = s.trace_lock := by
  cases ty with
  | t_callback => exact BIO_ctrl_table app b cmd _ _ s s' h
  | t_channel =>
    cases text with
    | none =>
      simp only [emit_line, Except.ok.injEq] at h
      subst h
      exact ⟨rfl, rfl, rfl⟩
    | some p =>
      simp only [emit_line] at h
      cases h1 : BIO_puts app b p s with
      | error e => rw [h1] at h; cases h
      | ok s1 =>
        rw [h1, bind_ok] at h
        obtain ⟨a1, a2, a3⟩ := BIO_puts_frame app b p s s1 h1
        obtain ⟨b1, b2, b3⟩ := BIO_puts_frame app b "\n" s1 s' h
        exact ⟨b1.trans a1, b2.trans a2, b3.trans a3⟩

/-- C4. For an in-range category with no sink of its own, when `ANY` holds the
sink `A`, `OSSL_trace_begin` does what it does for `ANY` itself: it returns
`A`, records it as the active block under the lock, and emits with the type
and the prefix of the record of `ANY`: the prefix and a newline to a direct
sink, the control command BEGIN to a callback sink. -/
theorem begin_falls_back_to_any (H : Header) (app : App) (s : State) (c : Int)
    (ty : ChannelType) (A : BIO) (PA SA : Option String)
    (hwf : WF H s) (h0 : 0 ≤ c) (h1 : c < H.OSSL_TRACE_CATEGORY_NUM)
    (hown : sink_of s c = none)
    (hany : channel_at s H.OSSL_TRACE_CATEGORY_ANY = .ok ⟨ty, some A, PA, SA⟩)
    (hlock : s.trace_lock = false) (hA : usable A) :
    OSSL_trace_begin H app c s = OSSL_trace_begin H app H.OSSL_TRACE_CATEGORY_ANY s
      ∧ ∃ s', OSSL_trace_begin H app c s = .ok (some A, s')
          ∧ emit_line app ty A .OSSL_TRACE_CTRL_BEGIN PA
              { s with trace_lock := true, current_channel := some A } = .ok s'
          ∧ s'.current_channel = some A ∧ s'.trace_lock = true
          ∧ s'.trace_channels = s.trace_channels
          ∧ (∀ a, ty = .t_channel → A = .sink a →
              s'.events = s.events ++ line_events a PA)
          ∧ (∀ a ctx, ty = .t_callback → A = .trace a (some ctx) →
              s'.events = s.events ++ [.call (ctrl_call ctx .OSSL_TRACE_CTRL_BEGIN)]) := by
  obtain ⟨r, hr⟩ := channel_at_of_WF H s hwf h0 h1
  have hb : r.bio = none := by simpa [sink_of, hr] using hown
  have hcat := get_category_fallback H s c r h0 h1 hr hb
  have hcatA := get_category_own H s _ _ A hwf.2.1 hwf.2.2 hany rfl
  obtain ⟨s', hs'⟩ := emit_line_usable app ty A .OSSL_TRACE_CTRL_BEGIN PA
    { s with trace_lock := true, current_channel := some A } hA
  obtain ⟨f1, f2, f3⟩ := emit_line_frame app ty A _ PA _ s' hs'
  refine ⟨?_, s', ?_, hs', f2, f3, f1, ?_, ?_⟩
  · rw [begin_of_resolved H app s c _ _ hcat hany, begin_of_resolved H app s _ _ _ hcatA hany]
  · rw [begin_of_resolved H app s c _ _ hcat hany]
    simp [hlock, hs']
  · intro a hty hsink
    subst hty hsink
    rw [emit_line_direct, Except.ok.injEq] at hs'
    rw [← hs']
  · intro a ctx hty htr
    subst hty htr
    rw [emit_line_callback app a ctx _ (Or.inl rfl), Except.ok.injEq] at hs'
    rw [← hs']

theorem begin_falls_back_to_any_witness :
    ∃ s', OSSL_trace_begin H1 app0 1 st3 = .ok (some (.sink 4), s')
      ∧ s'.events = st3.events ++ line_events 4 (some "any:") :=
  have h := begin_falls_back_to_any H1 app0 st3 1 .t_channel (.sink 4) (some "any:") none
    (by decide) (by decide) (by decide) (by rfl) (by rfl) (by rfl) True.intro
  h.2.imp fun _ hs => ⟨hs.1, hs.2.2.2.2.2.1 4 rfl rfl⟩

theorem table_at_set_same (t : List Channel) (i : Int) (r x : Channel)
    (h : table_at t i = .ok r) : table_at (t.set i.toNat x) i = .ok x := by
  unfold table_at at h ⊢
  split at h
  · next h0 =>
    rw [if_pos h0]
    cases hg : t[i.toNat]? with
    | none => simp [hg] at h
    | some y =>
      have hlt : i.toNat < t.length := by
        by_contra hn
        rw [List.getElem?_eq_none (by omega)] at hg
        cases hg
      simp [List.getElem?_set, hlt]
  · cases h

theorem table_at_set_other (t : List Channel) (i j : Int) (x : Channel)
    (hij : i ≠ j) (hj : 0 ≤ j) : table_at (t.set j.toNat x) i = table_at t i := by
  unfold table_at
  split
  · next h0 =>
    have hne : j.toNat ≠ i.toNat := by omega
    simp [List.getElem?_set, hne]
  · rfl

theorem channel_update_ok (s : State) (i : Int) (f : Channel → Channel) (r : Channel)
    (h : channel_at s i = .ok r) :
    channel_update s i f = .ok { s with trace_channels := s.trace_channels.set i.toNat (f r) } := by
  simp [channel_update, h]

theorem BIO_free_frame (b : Option BIO) (s : State) :
    (BIO_free b s).trace_channels = s.trace_channels
      ∧ (BIO_free b s).current_channel = s.current_channel
      ∧ (BIO_free b s).trace_lock = s.trace_lock := by
  cases b with
  | none => simp [BIO_free]
  | some b =>
    cases b with
    | sink a => simp [BIO_free, State.emit]
    | trace a ctx => cases ctx <;> simp [BIO_free, trace_free, BIO_get_data, State.emit]

theorem table_set_self (t : List Channel) (i : Int) (r : Channel)
    (h : table_at t i = .ok r) : t.set i.toNat r = t := by
  unfold table_at at h
  split at h
  · cases hg : t[i.toNat]? with
    | none => simp [hg] at h
    | some y =>
      simp [hg] at h
      subst h
      obtain ⟨hlt, hy⟩ := List.getElem?_eq_some.mp hg
      apply List.ext_getElem (by simp)
      intro n h1 h2
      by_cases hn : i.toNat = n
      · subst hn
        simp [hy]
      · simp [List.getElem_set, hn]
  · cases h

theorem set_channel_in_range (H : Header) (s : State) (c : Int) (r : Channel)
    (ch : Option BIO) (h0 : 0 ≤ c) (h1 : c < H.OSSL_TRACE_CATEGORY_NUM)
    (hr : channel_at s c = .ok r) :
    OSSL_trace_set_channel H c ch s
      = .ok (1, { BIO_free r.bio s with
          trace_channels := s.trace_channels.set c.toNat (set_channel_record r ch) }) := by
  have hg : ¬ (c < 0 ∨ c ≥ H.OSSL_TRACE_CATEGORY_NUM) := by omega
  obtain ⟨ty, bio, P, S⟩ := r
  unfold channel_at at hr
  cases bio with
  | none =>
    cases ch with
    | none =>
      simp [OSSL_trace_set_channel, hg, channel_at, hr, BIO_free, set_channel_record,
        table_set_self _ _ _ hr]
    | some b =>
      simp [OSSL_trace_set_channel, hg, channel_at, hr, BIO_free, set_channel_record,
        channel_update, table_at_set_same _ _ _ _ hr]
  | some p =>
    have hf := (BIO_free_frame (some p) s).1
    cases ch with
    | none =>
      simp [OSSL_trace_set_channel, hg, channel_at, hr, set_channel_record,
        channel_update, hf]
    | some b =>
      simp [OSSL_trace_set_channel, hg, channel_at, hr, set_channel_record,
        channel_update, hf, table_at_set_same _ _ _ _ hr]
theorem enabled_in_range (H : Header) (s : State) (hwf : WF H s) (c : Int) (h0 : 0 ≤ c)
    (h1 : c < H.OSSL_TRACE_CATEGORY_NUM) :
    OSSL_trace_enabled H c s
      = .ok ((sink_of s c).isSome || (sink_of s H.OSSL_TRACE_CATEGORY_ANY).isSome) := by
  obtain ⟨r, hr⟩ := channel_at_of_WF H s hwf h0 h1
  obtain ⟨rA, hrA⟩ := channel_at_of_WF H s hwf hwf.2.1 hwf.2.2
  cases hb : r.bio with
  | some b =>
    rw [enabled_of_resolved H s c c r (get_category_own H s c r b h0 h1 hr hb) hr]
    simp [sink_of, hr, hb]
  | none =>
    rw [enabled_of_resolved H s c _ rA (get_category_fallback H s c r h0 h1 hr hb) hrA]
    cases hA : rA.bio <;> simp [sink_of, hr, hrA, hb, hA]

/-- C5. For an in-range category `c`: after `OSSL_trace_set_channel` with a
non-null sink, `OSSL_trace_enabled` is true for `c`; after it with a null
sink, `OSSL_trace_enabled` for `c` says whether `ANY` has a sink, which is
false when `c` is `ANY` and is the sink `ANY` had before otherwise.  Both
calls return 1. -/
theorem enabled_after_set_channel (H : Header) (s : State) (c : Int)
    (hwf : WF H s) (h0 : 0 ≤ c) (h1 : c < H.OSSL_TRACE_CATEGORY_NUM) :
    (∀ S : BIO, ∃ s', OSSL_trace_set_channel H c (some S) s = .ok (1, s')
        ∧ OSSL_trace_enabled H c s' = .ok true)
      ∧ (∃ s', OSSL_trace_set_channel H c none s = .ok (1, s')
          ∧ OSSL_trace_enabled H c s' = .ok (sink_of s' H.OSSL_TRACE_CATEGORY_ANY).isSome
          ∧ (c = H.OSSL_TRACE_CATEGORY_ANY → OSSL_trace_enabled H c s' = .ok false)
          ∧ (c ≠ H.OSSL_TRACE_CATEGORY_ANY →
              sink_of s' H.OSSL_TRACE_CATEGORY_ANY = sink_of s H.OSSL_TRACE_CATEGORY_ANY)) := by
  obtain ⟨r, hr⟩ := channel_at_of_WF H s hwf h0 h1
  have hset := fun ch => set_channel_in_range H s c r ch h0 h1 hr
  have hwf' : ∀ ch, WF H { BIO_free r.bio s with
      trace_channels := s.trace_channels.set c.toNat (set_channel_record r ch) } := by
    intro ch
    exact ⟨by simpa using hwf.1, hwf.2⟩
  have hown : ∀ ch, sink_of { BIO_free r.bio s with
      trace_channels := s.trace_channels.set c.toNat (set_channel_record r ch) } c = ch := by
    intro ch
    have := table_at_set_same s.trace_channels c r (set_channel_record r ch) hr
    simp only [sink_of, channel_at]
    rw [this]
    cases ch <;> rfl
  refine ⟨fun S => ⟨_, hset (some S), ?_⟩, _, hset none, ?_, ?_, ?_⟩
  · rw [enabled_in_range H _ (hwf' _) c h0 h1, hown]
    simp
  · rw [enabled_in_range H _ (hwf' _) c h0 h1, hown]
    simp
  · intro hc
    rw [enabled_in_range H _ (hwf' _) c h0 h1, ← hc, hown]
    simp
  · intro hc
    simp only [sink_of, channel_at]
    rw [table_at_set_other _ _ _ _ (Ne.symm hc) h0]

theorem enabled_after_set_channel_witness :
    (∀ S : BIO, ∃ s', OSSL_trace_set_channel H1 1 (some S) st3 = .ok (1, s')
        ∧ OSSL_trace_enabled H1 1 s' = .ok true)
      ∧ (∃ s', OSSL_trace_set_channel H1 1 none st3 = .ok (1, s')
          ∧ OSSL_trace_enabled H1 1 s' = .ok (sink_of s' H1.OSSL_TRACE_CATEGORY_ANY).isSome
          ∧ (1 = H1.OSSL_TRACE_CATEGORY_ANY → OSSL_trace_enabled H1 1 s' = .ok false)
          ∧ (1 ≠ H1.OSSL_TRACE_CATEGORY_ANY →
              sink_of s' H1.OSSL_TRACE_CATEGORY_ANY = sink_of st3 H1.OSSL_TRACE_CATEGORY_ANY)) :=
  enabled_after_set_channel H1 st3 1 (by decide) (by decide) (by decide)
theorem end_mismatch_in_range (H : Header) (app : App) (s : State) (c : Int)
    (h : Option BIO) (hwf : WF H s) (h0 : 0 ≤ c) (h1 : c < H.OSSL_TRACE_CATEGORY_NUM)
    (hm : h = none ∨ h ≠ s.current_channel) :
    OSSL_trace_end H app c h s = .ok s := by
  obtain ⟨k, r, hcat, hr, -⟩ := resolved_in_range H s hwf c h0 h1
  rw [end_of_resolved H app s c k r hcat hr]
  cases h with
  | none => rfl
  | some b =>
    have hne : some b ≠ s.current_channel := by
      rcases hm with hm | hm
      · cases hm
      · exact hm
    simp [hne]

theorem get_category_total (H : Header) (s : State) (c : Int) (hwf : WF H s) :
    ∃ k, ossl_trace_get_category H c s = .ok k := by
  by_cases hg : c < 0 ∨ c ≥ H.OSSL_TRACE_CATEGORY_NUM
  · exact ⟨-1, get_category_invalid H s c hg⟩
  · obtain ⟨k, r, hcat, -, -⟩ := resolved_in_range H s hwf c (by omega) (by omega)
    exact ⟨k, hcat⟩

/-- C6. For every category, in the range or not, `OSSL_trace_end` returns the
state it was given when the handle is null, when no active handle is recorded,
or when the handle is not the recorded one: nothing is flushed or emitted,
`current_channel` is unchanged and the lock is neither released nor taken. -/
theorem end_is_noop_on_mismatch (H : Header) (app : App) (s : State) (c : Int)
    (h : Option BIO) (hwf : WF H s)
    (hm : h = none ∨ s.current_channel = none ∨ h ≠ s.current_channel) :
    OSSL_trace_end H app c h s = .ok s := by
  obtain ⟨k, hcat⟩ := get_category_total H s c hwf
  cases h with
  | none => simp [OSSL_trace_end, hcat]
  | some b =>
    have hne : some b ≠ s.current_channel := by
      rcases hm with hm | hm | hm
      · cases hm
      · rw [hm]; exact fun h0 => Option.noConfusion h0
      · exact hm
    simp [OSSL_trace_end, hcat, hne]

theorem end_is_noop_on_mismatch_witness :
    OSSL_trace_end H1 app0 (-1) none st1 = .ok st1
      ∧ OSSL_trace_end H1 app0 2 (some (.sink 8)) st1 = .ok st1
      ∧ OSSL_trace_end H1 app0 1 (some (.sink 8)) st_open = .ok st_open
      ∧ st_open.trace_lock = true :=
  ⟨end_is_noop_on_mismatch H1 app0 st1 (-1) none (by decide) (Or.inl rfl),
   end_is_noop_on_mismatch H1 app0 st1 2 (some (.sink 8)) (by decide) (Or.inr (Or.inl rfl)),
   end_is_noop_on_mismatch H1 app0 st_open 1 (some (.sink 8)) (by decide)
     (Or.inr (Or.inr (by decide))),
   rfl⟩

/-- C7. For a category below 0 or not below `OSSL_TRACE_CATEGORY_NUM`,
`OSSL_trace_set_channel` returns 0 and the state it was given: the table is
unchanged and nothing is released, whatever the sink argument. -/
theorem set_channel_out_of_range (H : Header) (s : State) (c : Int) (channel : Option BIO)
    (hc : c < 0 ∨ c ≥ H.OSSL_TRACE_CATEGORY_NUM) :
    OSSL_trace_set_channel H c channel s = .ok (0, s) := by
  simp [OSSL_trace_set_channel, hc]

theorem set_channel_out_of_range_witness :
    OSSL_trace_set_channel H1 (-1) (some (.sink 8)) st1 = .ok (0, st1)
      ∧ OSSL_trace_set_channel H1 2 none st1 = .ok (0, st1) :=
  ⟨set_channel_out_of_range H1 st1 (-1) (some (.sink 8)) (by decide),
   set_channel_out_of_range H1 st1 2 none (by decide)⟩

/-- C8. With a category outside the table, `OSSL_trace_set_callback`,
`OSSL_trace_set_prefix` and `OSSL_trace_set_suffix` do not return false: their
first statement reads `trace_channels[category]` outside the array, where
`OSSL_trace_set_channel` returns 0. -/
theorem set_text_out_of_range_faults :
    OSSL_trace_set_callback (some 9) true (-1) (some 3) 5 st1 = .error .out_of_bounds
      ∧ OSSL_trace_set_callback (some 9) true 2 none 5 st1 = .error .out_of_bounds
      ∧ OSSL_trace_set_prefix true (-1) (some "x") st1 = .error .out_of_bounds
      ∧ OSSL_trace_set_prefix true 2 none st1 = .error .out_of_bounds
      ∧ OSSL_trace_set_suffix true (-1) (some "x") st1 = .error .out_of_bounds
      ∧ OSSL_trace_set_suffix true 2 none st1 = .error .out_of_bounds
      ∧ OSSL_trace_set_channel H1 (-1) (some (.sink 8)) st1 = .ok (0, st1) := by
  refine ⟨rfl, rfl, rfl, rfl, rfl, rfl, rfl⟩

/-- C9. With a category outside the table, `ossl_trace_get_category` returns
-1, and `OSSL_trace_enabled` and `OSSL_trace_begin` use it as an index:
they read `trace_channels[-1]` instead of returning false and a null
handle. -/
theorem query_out_of_range_faults :
    ossl_trace_get_category H1 (-1) st1 = .ok (-1)
      ∧ ossl_trace_get_category H1 2 st1 = .ok (-1)
      ∧ OSSL_trace_enabled H1 (-1) st1 = .error .out_of_bounds
      ∧ OSSL_trace_enabled H1 2 st1 = .error .out_of_bounds
      ∧ OSSL_trace_begin H1 app0 (-1) st1 = .error .out_of_bounds
      ∧ OSSL_trace_begin H1 app0 2 st1 = .error .out_of_bounds := by
  refine ⟨rfl, rfl, rfl, rfl, rfl, rfl⟩

/-- C10, as the claim states it, fails: on a callback channel whose prefix is
`"[TRACE]"`, the control command BEGIN with that text as its argument hands the
callback the empty text and the length 0, not the text and its length 7, and
so does `OSSL_trace_begin`. -/
theorem ctrl_text_counterexample :
    trace_ctrl app0 (.trace 9 (some ⟨3, 1, 5⟩)) .OSSL_TRACE_CTRL_BEGIN 7 (some "[TRACE]") st2
        = .ok (1, st2.emit (.call ⟨3, "", 0, 1, .OSSL_TRACE_CTRL_BEGIN, 5⟩))
      ∧ trace_ctrl app0 (.trace 9 (some ⟨3, 1, 5⟩)) .OSSL_TRACE_CTRL_BEGIN 7 (some "[TRACE]") st2
        ≠ .ok (1, st2.emit (.call ⟨3, "[TRACE]", 7, 1, .OSSL_TRACE_CTRL_BEGIN, 5⟩))
      ∧ (OSSL_trace_begin H1 app0 1 st2).toOption.map (fun r => r.2.events)
        = some [.call ⟨3, "", 0, 1, .OSSL_TRACE_CTRL_BEGIN, 5⟩]
      ∧ (OSSL_trace_begin H1 app0 1 st2).toOption.map (fun r => r.2.events)
        ≠ some [.call ⟨3, "[TRACE]", 7, 1, .OSSL_TRACE_CTRL_BEGIN, 5⟩] := by
  refine ⟨rfl, by decide, rfl, by decide⟩

/-- C10, amended. For an object built on `trace_method` whose context holds
the callback, the category `c` and the data `d`, the control commands BEGIN
and END invoke the callback exactly once, with the command as phase, with `c`
and `d`, and with the empty text and the length 0 whatever the text argument
is; the count the callback returns is not used and the result is 1.  So
`OSSL_trace_begin` on a callback channel makes that one call in the BEGIN
phase, and `OSSL_trace_end` makes it in the END phase, whatever the prefix and
the suffix are. -/
theorem ctrl_calls_back_with_empty_text (H : Header) (app : App) (s : State) (a cb d : Nat)
    (c : Int) (cmd : Cmd) (argl : Nat) (argp P S : Option String)
    (hcmd : cmd = .OSSL_TRACE_CTRL_BEGIN ∨ cmd = .OSSL_TRACE_CTRL_END)
    (h0 : 0 ≤ c) (h1 : c < H.OSSL_TRACE_CATEGORY_NUM)
    (hr : channel_at s c = .ok ⟨.t_callback, some (.trace a (some ⟨cb, c, d⟩)), P, S⟩) :
    trace_ctrl app (.trace a (some ⟨cb, c, d⟩)) cmd argl argp s
        = .ok (1, s.emit (.call ⟨cb, "", 0, c, cmd, d⟩))
      ∧ (s.trace_lock = false →
          OSSL_trace_begin H app c s
            = .ok (some (.trace a (some ⟨cb, c, d⟩)),
                { s with trace_lock := true,
                         current_channel := some (.trace a (some ⟨cb, c, d⟩)),
                         events := s.events ++ [.call ⟨cb, "", 0, c, .OSSL_TRACE_CTRL_BEGIN, d⟩] }))
      ∧ (s.current_channel = some (.trace a (some ⟨cb, c, d⟩)) →
          OSSL_trace_end H app c (some (.trace a (some ⟨cb, c, d⟩))) s
            = .ok { s with trace_lock := false, current_channel := none,
                           events := s.events ++ [.call ⟨cb, "", 0, c, .OSSL_TRACE_CTRL_END, d⟩] }) := by
  have hcat := get_category_own H s c _ _ h0 h1 hr rfl
  refine ⟨?_, ?_, ?_⟩
  · rcases hcmd with h | h <;> subst h <;> rfl
  · intro hlock
    rw [begin_of_resolved H app s c c _ hcat hr]
    simp [hlock, emit_line_callback, ctrl_call]
  · intro hcur
    rw [end_of_resolved H app s c c _ hcat hr]
    simp [hcur, BIO_flush, BIO_ctrl, trace_ctrl, emit_line_callback, ctrl_call]

theorem ctrl_calls_back_with_empty_text_witness :
    trace_ctrl app0 (.trace 9 (some ⟨3, 1, 5⟩)) .OSSL_TRACE_CTRL_END 5 (some "[END]") st2
        = .ok (1, st2.emit (.call ⟨3, "", 0, 1, .OSSL_TRACE_CTRL_END, 5⟩)) :=
  (ctrl_calls_back_with_empty_text H1 app0 st2 9 3 5 1 .OSSL_TRACE_CTRL_END 5 (some "[END]")
    (some "[TRACE]") (some "[END]") (Or.inr rfl) (by decide) (by decide) rfl).1
theorem set_callback_in_range (s : State) (c : Int) (r : Channel) (bio_new : Option Nat)
    (zalloc_ok : Bool) (callback : Option Nat) (data : Nat)
    (hr : channel_at s c = .ok r) :
    OSSL_trace_set_callback bio_new zalloc_ok c callback data s
      = .ok (set_callback_result bio_new zalloc_ok callback,
          { BIO_free r.bio s with
            trace_channels := s.trace_channels.set c.toNat
              (set_callback_record r bio_new zalloc_ok c callback data)
            events := (BIO_free r.bio s).events
              ++ set_callback_undo bio_new zalloc_ok callback }) := by
  obtain ⟨ty, bio, P, S⟩ := r
  unfold channel_at at hr
  have hf := (BIO_free_frame bio s).1
  cases bio with
  | none =>
    cases callback <;> cases bio_new <;> cases zalloc_ok <;>
      simp [OSSL_trace_set_callback, channel_at, hr, BIO_free, set_callback_record,
        set_callback_result, set_callback_undo, BIO_new, BIO_set_data, channel_update,
        table_set_self _ _ _ hr, table_at_set_same _ _ _ _ hr, trace_free, BIO_get_data,
        State.emit]
  | some p =>
    cases callback <;> cases bio_new <;> cases zalloc_ok <;>
      simp [OSSL_trace_set_callback, channel_at, hr, hf, set_callback_record,
        set_callback_result, set_callback_undo, BIO_new, BIO_set_data, channel_update,
        table_at_set_same _ _ _ _ hr, trace_free, BIO_get_data, State.emit]
    all_goals rfl

theorem set_prefix_in_range (s : State) (c : Int) (r : Channel) (strdup_ok : Bool)
    (text : Option String) (hr : channel_at s c = .ok r) :
    OSSL_trace_set_prefix strdup_ok c text s
      = .ok (set_text_result strdup_ok text,
          { s with
            trace_channels := s.trace_channels.set c.toNat
              { r with prefix_ := stored_text strdup_ok text }
            events := s.events ++ free_text_events r.prefix_ }) := by
  obtain ⟨ty, bio, P, S⟩ := r
  unfold channel_at at hr
  cases P <;> cases text <;> cases strdup_ok <;>
    simp [ OSSL_trace_set_prefix, channel_at, hr, stored_text, set_text_result,
      free_text_events, OPENSSL_strdup, channel_update, State.emit,
      table_set_self _ _ _ hr, table_at_set_same _ _ _ _ hr]

theorem set_suffix_in_range (s : State) (c : Int) (r : Channel) (strdup_ok : Bool)
    (text : Option String) (hr : channel_at s c = .ok r) :
    OSSL_trace_set_suffix strdup_ok c text s
      = .ok (set_text_result strdup_ok text,
          { s with
            trace_channels := s.trace_channels.set c.toNat
              { r with suffix := stored_text strdup_ok text }
            events := s.events ++ free_text_events r.suffix }) := by
  obtain ⟨ty, bio, P, S⟩ := r
  unfold channel_at at hr
  cases S <;> cases text <;> cases strdup_ok <;>
    simp [OSSL_trace_set_suffix, channel_at, hr, stored_text, set_text_result,
      free_text_events, OPENSSL_strdup, channel_update, State.emit,
      table_set_self _ _ _ hr, table_at_set_same _ _ _ _ hr]

theorem sink_of_set_same (s t : State) (c : Int) (r x : Channel)
    (hr : channel_at s c = .ok r)
    (ht : t.trace_channels = s.trace_channels.set c.toNat x) :
    channel_at t c = .ok x := by
  unfold channel_at at hr ⊢
  rw [ht]
  exact table_at_set_same _ _ _ _ hr

/-- C11. For an in-range category `c`, a callback `cb` and data `d`:
`OSSL_trace_set_callback` succeeds when both allocations do, and whenever it
returns 1 the sink stored for `c` is an adapter whose context is `cb`, `c`,
`d`.  `trace_write` on that sink with a buffer and a length invokes the
callback once, with the buffer, the length, `c`, the DURING phase and `d`; it
reports success exactly when the count returned is not 0, and reports that
count as the number written, whatever it is. -/
theorem write_invokes_callback (H : Header) (app : App) (s : State) (c : Int) (cb d : Nat)
    (hwf : WF H s) (h0 : 0 ≤ c) (h1 : c < H.OSSL_TRACE_CATEGORY_NUM) :
    (∀ a, ∃ s', OSSL_trace_set_callback (some a) true c (some cb) d s = .ok (1, s'))
      ∧ ∀ bio_new zalloc_ok s',
          OSSL_trace_set_callback bio_new zalloc_ok c (some cb) d s = .ok (1, s') →
          ∃ a, sink_of s' c = some (.trace a (some ⟨cb, c, d⟩))
            ∧ (channel_at s' c).toOption.map (fun r => r.type) = some .t_callback
            ∧ ∀ (t : State) (buf : String) (n : Nat),
                trace_write app (.trace a (some ⟨cb, c, d⟩)) buf n t
                  = .ok ((decide (app t.events ⟨cb, buf, n, c, .OSSL_TRACE_CTRL_DURING, d⟩ ≠ 0),
                          app t.events ⟨cb, buf, n, c, .OSSL_TRACE_CTRL_DURING, d⟩),
                      t.emit (.call ⟨cb, buf, n, c, .OSSL_TRACE_CTRL_DURING, d⟩)) := by
  obtain ⟨r, hr⟩ := channel_at_of_WF H s hwf h0 h1
  refine ⟨fun a => ⟨_, set_callback_in_range s c r (some a) true (some cb) d hr⟩, ?_⟩
  intro bio_new zalloc_ok s' hs'
  rw [set_callback_in_range s c r bio_new zalloc_ok (some cb) d hr] at hs'
  cases bio_new with
  | none => simp [set_callback_result] at hs'
  | some a =>
    cases zalloc_ok with
    | false => simp [set_callback_result] at hs'
    | true =>
      simp only [Except.ok.injEq, Prod.mk.injEq] at hs'
      have hat := sink_of_set_same s s' c r _ hr (by rw [← hs'.2])
      refine ⟨a, ?_, ?_, ?_⟩
      · simp [sink_of, hat, set_callback_record]
      · simp [hat, set_callback_record, Except.toOption]
      · intro t buf n
        simp only [trace_write, BIO_get_data, bne, ne_eq, decide_not]
        rfl

theorem write_invokes_callback_witness :
    ∃ s', OSSL_trace_set_callback (some 9) true 1 (some 3) 5 st1 = .ok (1, s')
      ∧ sink_of s' 1 = some (.trace 9 (some ⟨3, 1, 5⟩)) :=
  have h := write_invokes_callback H1 app0 st1 1 3 5 (by decide) (by decide) (by decide)
  (h.1 9).imp fun s' hs' =>
    ⟨hs', by
      obtain ⟨a, ha, -⟩ := h.2 (some 9) true s' hs'
      have h9 : s' = _ := (Prod.mk.inj (Except.ok.inj (hs'.symm.trans
        (set_callback_in_range st1 1 _ (some 9) true (some 3) 5 rfl)))).2
      subst h9
      rfl⟩

theorem int_of_size_t_small (k : Nat) (hk : k < 2 ^ 31) : int_of_size_t k = (k : Int) := by
  have h1 : k % 2 ^ 32 = k := Nat.mod_eq_of_lt (by omega)
  unfold int_of_size_t
  rw [h1, if_pos hk]

/-- C12, as the claim states it, fails: a callback that returns the count
4294967295 makes `trace_write` succeed with that count, and `trace_puts`
returns `EOF`, the failure marker, which is not the count. -/
theorem puts_marker_counterexample :
    trace_write app_big (.trace 9 (some ⟨3, 1, 5⟩)) "abc" (strlen "abc") st1
        = .ok ((true, 4294967295), st1.emit (.call (during_call ⟨3, 1, 5⟩ "abc")))
      ∧ trace_puts app_big (.trace 9 (some ⟨3, 1, 5⟩)) "abc" st1
        = .ok (EOF, st1.emit (.call (during_call ⟨3, 1, 5⟩ "abc")))
      ∧ EOF ≠ (4294967295 : Int) := by
  refine ⟨rfl, rfl, by decide⟩

/-- C12, amended. `trace_puts` on a callback sink makes the one callback call
that `trace_write` makes for the text and its length, and returns `EOF` when
the count returned is 0 and the count converted to `int` otherwise.  For a
count below 2^31 that is the count itself, and then the result is `EOF`
exactly when the write fails. -/
theorem puts_returns_count (app : App) (a : Nat) (ctx : trace_data_st) (t : String)
    (s : State)
    (hk : app s.events (during_call ctx t) < 2 ^ 31) :
    trace_write app (.trace a (some ctx)) t (strlen t) s
        = .ok ((app s.events (during_call ctx t) != 0, app s.events (during_call ctx t)),
            s.emit (.call (during_call ctx t)))
      ∧ trace_puts app (.trace a (some ctx)) t s
        = .ok (if app s.events (during_call ctx t) = 0 then EOF
               else int_of_size_t (app s.events (during_call ctx t)),
            s.emit (.call (during_call ctx t)))
      ∧ trace_puts app (.trace a (some ctx)) t s
        = .ok (if app s.events (during_call ctx t) = 0 then EOF
               else (app s.events (during_call ctx t) : Int),
            s.emit (.call (during_call ctx t)))
      ∧ ((if app s.events (during_call ctx t) = 0 then EOF
          else (app s.events (during_call ctx t) : Int)) = EOF
          ↔ app s.events (during_call ctx t) = 0) := by
  have hw : trace_write app (.trace a (some ctx)) t (strlen t) s
      = .ok ((app s.events (during_call ctx t) != 0, app s.events (during_call ctx t)),
          s.emit (.call (during_call ctx t))) := rfl
  have hp : trace_puts app (.trace a (some ctx)) t s
      = .ok (if app s.events (during_call ctx t) = 0 then EOF
             else int_of_size_t (app s.events (during_call ctx t)),
          s.emit (.call (during_call ctx t))) := by
    simp only [trace_puts, hw]
    by_cases h : app s.events (during_call ctx t) = 0
    · simp [h]
    · simp [h]
  refine ⟨hw, hp, ?_, ?_⟩
  · rw [hp, int_of_size_t_small _ hk]
  · by_cases h : app s.events (during_call ctx t) = 0
    · simp [h]
    · simp only [h, if_false, iff_false, EOF]
      omega

theorem puts_returns_count_witness :
    trace_puts app0 (.trace 9 (some ⟨3, 1, 5⟩)) "abc" st1
      = .ok (3, st1.emit (.call (during_call ⟨3, 1, 5⟩ "abc"))) :=
  (puts_returns_count app0 9 ⟨3, 1, 5⟩ "abc" st1 (by decide)).2.2.1

/-- C13. For an in-range category, the four clearing calls return 1 whatever
the table holds and whatever the allocator would answer:
`OSSL_trace_set_channel` and `OSSL_trace_set_callback` with a null argument
leave the sink slot of the category empty, `OSSL_trace_set_prefix` and
`OSSL_trace_set_suffix` with a null text leave it with no prefix and no
suffix. -/
theorem clearing_calls_succeed (H : Header) (s : State) (c : Int)
    (hwf : WF H s) (h0 : 0 ≤ c) (h1 : c < H.OSSL_TRACE_CATEGORY_NUM) :
    (∃ s', OSSL_trace_set_channel H c none s = .ok (1, s') ∧ sink_of s' c = none)
      ∧ (∀ bio_new zalloc_ok data, ∃ s',
          OSSL_trace_set_callback bio_new zalloc_ok c none data s = .ok (1, s')
            ∧ sink_of s' c = none)
      ∧ (∀ strdup_ok, ∃ s',
          OSSL_trace_set_prefix strdup_ok c none s = .ok (1, s') ∧ prefix_of s' c = none)
      ∧ (∀ strdup_ok, ∃ s',
          OSSL_trace_set_suffix strdup_ok c none s = .ok (1, s') ∧ suffix_of s' c = none) := by
  obtain ⟨r, hr⟩ := channel_at_of_WF H s hwf h0 h1
  refine ⟨⟨_, set_channel_in_range H s c r none h0 h1 hr, ?_⟩, fun bn z d => ?_,
    fun ok => ?_, fun ok => ?_⟩
  · simp only [sink_of]
    rw [sink_of_set_same s _ c r _ hr rfl]
    rfl
  · have h := set_callback_in_range s c r bn z none d hr
    have hret : set_callback_result bn z none = 1 := by cases bn <;> cases z <;> rfl
    have hrec : set_callback_record r bn z c none d = { r with bio := none } := by
      cases bn <;> cases z <;> rfl
    rw [hret, hrec] at h
    refine ⟨_, h, ?_⟩
    simp only [sink_of]
    rw [sink_of_set_same s _ c r _ hr rfl]
  · refine ⟨_, set_prefix_in_range s c r ok none hr, ?_⟩
    simp only [prefix_of]
    rw [sink_of_set_same s _ c r _ hr rfl]
    rfl
  · refine ⟨_, set_suffix_in_range s c r ok none hr, ?_⟩
    simp only [suffix_of]
    rw [sink_of_set_same s _ c r _ hr rfl]
    rfl

theorem clearing_calls_succeed_witness :
    (∃ s', OSSL_trace_set_channel H1 1 none st1 = .ok (1, s') ∧ sink_of s' 1 = none)
      ∧ (∀ bio_new zalloc_ok data, ∃ s',
          OSSL_trace_set_callback bio_new zalloc_ok 1 none data st1 = .ok (1, s')
            ∧ sink_of s' 1 = none)
      ∧ (∀ strdup_ok, ∃ s',
          OSSL_trace_set_prefix strdup_ok 1 none st1 = .ok (1, s') ∧ prefix_of s' 1 = none)
      ∧ (∀ strdup_ok, ∃ s',
          OSSL_trace_set_suffix strdup_ok 1 none st1 = .ok (1, s') ∧ suffix_of s' 1 = none) :=
  clearing_calls_succeed H1 st1 1 (by decide) (by decide) (by decide)

/-- C14. For an in-range category, with the allocations as an oracle:
`OSSL_trace_set_prefix` and `OSSL_trace_set_suffix` with a text return 0
exactly when the duplication fails; `OSSL_trace_set_callback` with a callback
returns 0 exactly when the allocation of the object or of its context fails.
On success the text stored is the text given, and the sink stored is an
adapter in callback mode; on failure the category is left with no prefix, no
suffix, no sink, whatever it held. -/
theorem setters_fail_iff_allocation_fails (H : Header) (s : State) (c : Int)
    (hwf : WF H s) (h0 : 0 ≤ c) (h1 : c < H.OSSL_TRACE_CATEGORY_NUM) :
    (∀ strdup_ok t, ∃ ret s',
        OSSL_trace_set_prefix strdup_ok c (some t) s = .ok (ret, s')
          ∧ (ret = 0 ↔ strdup_ok = false) ∧ (ret = 1 ↔ strdup_ok = true)
          ∧ prefix_of s' c = (if strdup_ok then some t else none))
      ∧ (∀ strdup_ok t, ∃ ret s',
        OSSL_trace_set_suffix strdup_ok c (some t) s = .ok (ret, s')
          ∧ (ret = 0 ↔ strdup_ok = false) ∧ (ret = 1 ↔ strdup_ok = true)
          ∧ suffix_of s' c = (if strdup_ok then some t else none))
      ∧ (∀ bio_new zalloc_ok cb data, ∃ ret s',
        OSSL_trace_set_callback bio_new zalloc_ok c (some cb) data s = .ok (ret, s')
          ∧ (ret = 0 ↔ bio_new = none ∨ zalloc_ok = false)
          ∧ (ret = 1 ↔ ¬ (bio_new = none ∨ zalloc_ok = false))
          ∧ (ret = 1 → ∃ a, bio_new = some a
              ∧ sink_of s' c = some (.trace a (some ⟨cb, c, data⟩))
              ∧ type_of s' c = some .t_callback)
          ∧ (ret = 0 → sink_of s' c = none)) := by
  obtain ⟨r, hr⟩ := channel_at_of_WF H s hwf h0 h1
  refine ⟨fun ok t => ⟨_, _, set_prefix_in_range s c r ok (some t) hr, ?_, ?_, ?_⟩,
    fun ok t => ⟨_, _, set_suffix_in_range s c r ok (some t) hr, ?_, ?_, ?_⟩,
    fun bn z cb d => ⟨_, _, set_callback_in_range s c r bn z (some cb) d hr, ?_, ?_, ?_, ?_⟩⟩
  · cases ok <;> simp [set_text_result]
  · cases ok <;> simp [set_text_result]
  · simp only [prefix_of]
    rw [sink_of_set_same s _ c r _ hr rfl]
    cases ok <;> rfl
  · cases ok <;> simp [set_text_result]
  · cases ok <;> simp [set_text_result]
  · simp only [suffix_of]
    rw [sink_of_set_same s _ c r _ hr rfl]
    cases ok <;> rfl
  · cases bn <;> cases z <;> simp [set_callback_result]
  · cases bn <;> cases z <;> simp [set_callback_result]
  · intro hret
    simp only [sink_of, type_of]
    rw [sink_of_set_same s _ c r _ hr rfl]
    cases bn with
    | none => simp [set_callback_result] at hret
    | some a =>
      cases z with
      | false => simp [set_callback_result] at hret
      | true => exact ⟨a, rfl, rfl, rfl⟩
  · intro hret
    simp only [sink_of]
    rw [sink_of_set_same s _ c r _ hr rfl]
    cases bn with
    | none => rfl
    | some a =>
      cases z with
      | false => rfl
      | true => simp [set_callback_result] at hret

theorem setters_fail_iff_allocation_fails_witness :
    (∃ s', OSSL_trace_set_prefix false 1 (some "new") st1 = .ok (0, s') ∧ prefix_of s' 1 = none)
      ∧ (∃ s', OSSL_trace_set_callback (some 9) false 1 (some 3) 5 st1 = .ok (0, s')
          ∧ sink_of s' 1 = none) := by
  have h := setters_fail_iff_allocation_fails H1 st1 1 (by decide) (by decide) (by decide)
  constructor
  · obtain ⟨ret, s', he, hz, -, hp⟩ := h.1 false "new"
    have hret : ret = 0 := hz.mpr rfl
    subst hret
    exact ⟨s', he, hp⟩
  · obtain ⟨ret, s', he, hz, -, -, hp⟩ := h.2.2 (some 9) false 3 5
    have hret : ret = 0 := hz.mpr (Or.inr rfl)
    subst hret
    exact ⟨s', he, hp rfl⟩

/-- C15. On a table whose category 1 holds a sink, the prefix `"[TRACE]"` and
the suffix `"[END]"`, `ossl_trace_cleanup` releases the sink and empties its
slot, and leaves both texts stored and unreleased: it calls only
`OSSL_trace_set_channel`. -/
theorem cleanup_keeps_texts :
    ossl_trace_cleanup H1 st1
        = .ok ⟨[⟨.t_channel, none, none, none⟩,
                ⟨.t_channel, none, some "[TRACE]", some "[END]"⟩],
              none, false, [.bio_free (.sink 7)]⟩
      ∧ (ossl_trace_cleanup H1 st1).toOption.map (fun s => prefix_of s 1) = some (some "[TRACE]")
      ∧ (ossl_trace_cleanup H1 st1).toOption.map (fun s => suffix_of s 1) = some (some "[END]")
      ∧ (ossl_trace_cleanup H1 st1).toOption.map (fun s => sink_of s 1) = some none
      ∧ (ossl_trace_cleanup H1 st1).toOption.map (fun s => freed_texts s.events) = some [] := by
  refine ⟨rfl, rfl, rfl, rfl, rfl⟩

theorem char_eq_of_toNat_eq {a b : Char} (h : a.toNat = b.toNat) : a = b := by
  rw [← Char.ofNat_toNat a, ← Char.ofNat_toNat b, h]

theorem toLower_toNat_ne_zero (c : Char) (h : c.toNat ≠ 0) : c.toLower.toNat ≠ 0 := by
  by_cases hu : c.toNat ≥ 65 ∧ c.toNat ≤ 90
  · have hc : c = Char.ofNat c.toNat := (Char.ofNat_toNat c).symm
    obtain ⟨h1, h2⟩ := hu
    generalize c.toNat = n at hc h1 h2
    subst hc
    interval_cases n <;> decide
  · simp only [Char.toLower, hu, if_false]
    exact h

theorem strcasecmp_chars_eq_zero (a b : List Char)
    (ha : ∀ c ∈ a, c.toNat ≠ 0) (hb : ∀ c ∈ b, c.toNat ≠ 0) :
    strcasecmp_chars a b = 0 ↔ a.map Char.toLower = b.map Char.toLower := by
  induction a generalizing b with
  | nil =>
    cases b with
    | nil => simp [strcasecmp_chars]
    | cons y ys =>
      have hy := toLower_toNat_ne_zero y (hb y (List.mem_cons_self _ _))
      simp only [strcasecmp_chars, List.map_nil, List.map_cons]
      constructor
      · intro h
        omega
      · intro h
        cases h
  | cons x xs ih =>
    cases b with
    | nil =>
      have hx := toLower_toNat_ne_zero x (ha x (List.mem_cons_self _ _))
      simp only [strcasecmp_chars, List.map_nil, List.map_cons]
      constructor
      · intro h
        omega
      · intro h
        cases h
    | cons y ys =>
      have ih' := ih ys (fun c hc => ha c (List.mem_cons_of_mem _ hc))
        (fun c hc => hb c (List.mem_cons_of_mem _ hc))
      simp only [strcasecmp_chars, List.map_cons, List.cons.injEq]
      by_cases hxy : x.toLower = y.toLower
      · simp [hxy, ih']
      · simp only [hxy, if_false, false_and, iff_false]
        intro h
        exact hxy (char_eq_of_toNat_eq (by omega))

theorem category_num_eq (H : Header) (s : String) :
    OSSL_trace_get_category_num H s
      = if strcasecmp s "ANY" = 0 then H.OSSL_TRACE_CATEGORY_ANY else -1 := by
  unfold OSSL_trace_get_category_num trace_categories
  by_cases h : strcasecmp s "ANY" = 0
  · simp [List.find?, h]
  · simp [List.find?, h]

/-- C16. Every entry of `trace_categories` is found again: for its number
`OSSL_trace_get_category_name` returns its name, and for that name
`OSSL_trace_get_category_num` returns its number; no two entries of the table
have names that `strcasecmp` takes for equal. -/
theorem category_name_roundtrip (H : Header) (e : trace_category_st)
    (he : e ∈ trace_categories H) :
    OSSL_trace_get_category_name H e.num = some e.name
      ∧ OSSL_trace_get_category_num H e.name = e.num
      ∧ (trace_categories H).Pairwise (fun x y => strcasecmp x.name y.name ≠ 0) := by
  simp only [trace_categories, List.mem_singleton] at he
  subst he
  refine ⟨?_, ?_, ?_⟩
  · simp [OSSL_trace_get_category_name, trace_categories, List.find?]
  · rw [category_num_eq]
    have h : strcasecmp "ANY" "ANY" = 0 := by decide
    simp [h]
  · simp [trace_categories]

theorem category_name_roundtrip_witness :
    OSSL_trace_get_category_name H1 0 = some "ANY"
      ∧ OSSL_trace_get_category_num H1 "ANY" = 0 :=
  have h := category_name_roundtrip H1 ⟨"ANY", 0⟩ (by decide)
  ⟨h.1, h.2.1⟩

/-- C17. `OSSL_trace_get_category_num` on a C string: when the text equals
the name of an entry of `trace_categories` up to ASCII letter case, the result
is the number of that entry; when it equals the name of no entry up to ASCII
letter case, the result is -1. -/
theorem category_num_ignores_case (H : Header) (s : String) (hs : no_nul s) :
    (∀ e ∈ trace_categories H, eq_ignoring_case s e.name →
        OSSL_trace_get_category_num H s = e.num)
      ∧ ((∀ e ∈ trace_categories H, ¬ eq_ignoring_case s e.name) →
        OSSL_trace_get_category_num H s = -1) := by
  have hany : no_nul "ANY" := by
    intro c hc
    have : c = 'A' ∨ c = 'N' ∨ c = 'Y' := by simpa using hc
    rcases this with h | h | h <;> subst h <;> decide
  have hiff : strcasecmp s "ANY" = 0 ↔ eq_ignoring_case s "ANY" :=
    strcasecmp_chars_eq_zero _ _ hs hany
  constructor
  · intro e he heq
    simp only [trace_categories, List.mem_singleton] at he
    subst he
    rw [category_num_eq, if_pos (hiff.mpr heq)]
  · intro hno
    have h := hno ⟨"ANY", H.OSSL_TRACE_CATEGORY_ANY⟩ (by simp [trace_categories])
    rw [category_num_eq, if_neg (fun h0 => h (hiff.mp h0))]

theorem category_num_ignores_case_witness :
    OSSL_trace_get_category_num H1 "aNy" = 0
      ∧ OSSL_trace_get_category_num H1 "nonexistent" = -1 :=
  ⟨(category_num_ignores_case H1 "aNy" (by decide)).1 ⟨"ANY", 0⟩ (by decide) (by decide),
   (category_num_ignores_case H1 "nonexistent" (by decide)).2 (by decide)⟩

theorem set_channel_frame (H : Header) (c : Int) (ch : Option BIO) (s s' : State) (ret : Int)
    (h : OSSL_trace_set_channel H c ch s = .ok (ret, s')) :
    s'.current_channel = s.current_channel ∧ s'.trace_lock = s.trace_lock := by
  by_cases hg : c < 0 ∨ c ≥ H.OSSL_TRACE_CATEGORY_NUM
  · simp only [OSSL_trace_set_channel, hg, if_true, Except.ok.injEq, Prod.mk.injEq] at h
    rw [← h.2]
    exact ⟨rfl, rfl⟩
  · cases hr : channel_at s c with
    | error e => simp [OSSL_trace_set_channel, hg, hr] at h
    | ok r =>
      rw [set_channel_in_range H s c r ch (by omega) (by omega) hr] at h
      simp only [Except.ok.injEq, Prod.mk.injEq] at h
      rw [← h.2]
      exact ⟨(BIO_free_frame r.bio s).2.1, (BIO_free_frame r.bio s).2.2⟩

theorem set_callback_frame (bn : Option Nat) (z : Bool) (c : Int) (cb : Option Nat) (d : Nat)
    (s s' : State) (ret : Int)
    (h : OSSL_trace_set_callback bn z c cb d s = .ok (ret, s')) :
    s'.current_channel = s.current_channel ∧ s'.trace_lock = s.trace_lock := by
  cases hr : channel_at s c with
  | error e => simp [OSSL_trace_set_callback, hr] at h
  | ok r =>
    rw [set_callback_in_range s c r bn z cb d hr] at h
    simp only [Except.ok.injEq, Prod.mk.injEq] at h
    rw [← h.2]
    exact ⟨(BIO_free_frame r.bio s).2.1, (BIO_free_frame r.bio s).2.2⟩

theorem set_prefix_frame (ok : Bool) (c : Int) (t : Option String) (s s' : State) (ret : Int)
    (h : OSSL_trace_set_prefix ok c t s = .ok (ret, s')) :
    s'.current_channel = s.current_channel ∧ s'.trace_lock = s.trace_lock := by
  cases hr : channel_at s c with
  | error e => simp [ OSSL_trace_set_prefix, hr] at h
  | ok r =>
    rw [set_prefix_in_range s c r ok t hr] at h
    simp only [Except.ok.injEq, Prod.mk.injEq] at h
    rw [← h.2]
    exact ⟨rfl, rfl⟩

theorem set_suffix_frame (ok : Bool) (c : Int) (t : Option String) (s s' : State) (ret : Int)
    (h : OSSL_trace_set_suffix ok c t s = .ok (ret, s')) :
    s'.current_channel = s.current_channel ∧ s'.trace_lock = s.trace_lock := by
  cases hr : channel_at s c with
  | error e => simp [OSSL_trace_set_suffix, hr] at h
  | ok r =>
    rw [set_suffix_in_range s c r ok t hr] at h
    simp only [Except.ok.injEq, Prod.mk.injEq] at h
    rw [← h.2]
    exact ⟨rfl, rfl⟩

theorem begin_resolves (H : Header) (app : App) (c : Int) (s : State)
    (x : Option BIO × State) (h : OSSL_trace_begin H app c s = .ok x) :
    ∃ k r, ossl_trace_get_category H c s = .ok k ∧ channel_at s k = .ok r := by
  cases hk : ossl_trace_get_category H c s with
  | error e => simp [OSSL_trace_begin, hk] at h
  | ok k =>
    cases hr : channel_at s k with
    | error e => simp [OSSL_trace_begin, hk, hr] at h
    | ok r => exact ⟨k, r, rfl, hr⟩

theorem begin_cases (H : Header) (app : App) (c : Int) (s : State) (hd : Option BIO)
    (s' : State) (h : OSSL_trace_begin H app c s = .ok (hd, s')) :
    (hd = none ∧ s' = s)
      ∨ (∃ b, hd = some b ∧ s.trace_lock = false ∧ s'.trace_lock = true
          ∧ s'.current_channel = some b) := by
  obtain ⟨k, r, hk, hr⟩ := begin_resolves H app c s _ h
  rw [begin_of_resolved H app s c k r hk hr] at h
  cases hb : r.bio with
  | none =>
    simp only [hb, Except.ok.injEq, Prod.mk.injEq] at h
    exact Or.inl ⟨h.1.symm, h.2.symm⟩
  | some b =>
    simp only [hb] at h
    cases hl : s.trace_lock with
    | true => simp [hl] at h
    | false =>
      simp only [hl] at h
      cases he : emit_line app r.type b .OSSL_TRACE_CTRL_BEGIN r.prefix_
          { s with trace_lock := true, current_channel := some b } with
      | error e => simp [he] at h
      | ok s3 =>
        obtain ⟨-, f2, f3⟩ := emit_line_frame app _ b _ _ _ s3 he
        simp only [he, bind_ok, Bool.false_eq_true, if_false, Except.ok.injEq,
          Prod.mk.injEq] at h
        refine Or.inr ⟨b, h.1.symm, rfl, ?_, ?_⟩
        · rw [← h.2]; exact f3
        · rw [← h.2]; exact f2

theorem end_cases (H : Header) (app : App) (c : Int) (ch : Option BIO) (s s' : State)
    (h : OSSL_trace_end H app c ch s = .ok s') :
    s' = s ∨ (ch ≠ none ∧ ch = s.current_channel ∧ s'.trace_lock = false
      ∧ s'.current_channel = none) := by
  cases hk : ossl_trace_get_category H c s with
  | error e => simp [OSSL_trace_end, hk] at h
  | ok k =>
    cases ch with
    | none =>
      simp only [OSSL_trace_end, hk, bind_ok, pure_eq_ok, Except.ok.injEq] at h
      exact Or.inl h.symm
    | some b =>
      by_cases hcur : some b = s.current_channel
      · cases hr : channel_at s k with
        | error e => simp [OSSL_trace_end, hk, hcur, hr, Except.map] at h
        | ok r =>
          rw [end_of_resolved H app s c k r hk hr] at h
          simp only [hcur, if_true] at h
          cases hf : (BIO_flush app b s
              >>= emit_line app r.type b .OSSL_TRACE_CTRL_END r.suffix) with
          | error e => simp [hf] at h
          | ok s2 =>
            simp only [hf, bind_ok, Except.ok.injEq] at h
            refine Or.inr ⟨by simp, hcur, ?_, ?_⟩ <;> rw [← h]
      · simp only [OSSL_trace_end, hk, bind_ok, hcur, if_false, pure_eq_ok,
          Except.ok.injEq] at h
        exact Or.inl h.symm

theorem step_preserves_lock_iff (H : Header) (app : App) (op : Op) (s s' : State)
    (hinv : s.trace_lock = true ↔ s.current_channel ≠ none)
    (h : step H app op s = .ok s') :
    (s'.trace_lock = true ↔ s'.current_channel ≠ none) := by
  have frame : ∀ {x : Except Fault (Int × State)},
      (∀ ret t, x = .ok (ret, t) →
        t.current_channel = s.current_channel ∧ t.trace_lock = s.trace_lock) →
      x.map (fun r => r.2) = .ok s' →
      (s'.trace_lock = true ↔ s'.current_channel ≠ none) := by
    intro x hx hm
    cases x with
    | error e => cases hm
    | ok p =>
      obtain ⟨ret, t⟩ := p
      simp only [Except.map, Except.ok.injEq] at hm
      subst hm
      obtain ⟨a1, a2⟩ := hx ret t rfl
      rw [a1, a2]
      exact hinv
  cases op with
  | set_sink c ch => exact frame (fun ret t ht => set_channel_frame H c ch s t ret ht) h
  | set_callback bn z c cb d =>
    exact frame (fun ret t ht => set_callback_frame bn z c cb d s t ret ht) h
  | set_pre ok c t => exact frame (fun ret u hu => set_prefix_frame ok c t s u ret hu) h
  | set_suf ok c t => exact frame (fun ret u hu => set_suffix_frame ok c t s u ret hu) h
  | begin_block c =>
    simp only [step] at h
    cases hb : OSSL_trace_begin H app c s with
    | error e => simp [hb, Except.map] at h
    | ok p =>
      obtain ⟨hd, t⟩ := p
      simp only [hb, Except.map, Except.ok.injEq] at h
      subst h
      rcases begin_cases H app c s hd t hb with ⟨-, ht⟩ | ⟨b, -, -, h2, h3⟩
      · rw [ht]; exact hinv
      · simp [h2, h3]
  | end_block c ch =>
    simp only [step] at h
    rcases end_cases H app c ch s s' h with ht | ⟨-, -, h2, h3⟩
    · rw [ht]; exact hinv
    · simp [h2, h3]

theorem reachable_of_run (H : Header) (app : App) (ops : List Op) (s s' : State)
    (hs : Reachable H app s) (h : run H app ops s = .ok s') : Reachable H app s' := by
  induction ops generalizing s with
  | nil =>
    simp only [run, List.foldlM, pure_eq_ok, Except.ok.injEq] at h
    rw [← h]
    exact hs
  | cons op ops ih =>
    simp only [run, List.foldlM_cons] at h
    cases h1 : step H app op s with
    | error e => rw [h1] at h; cases h
    | ok s1 =>
      rw [h1, bind_ok] at h
      exact ih s1 (Reachable.step op s s1 hs h1) h

theorem lock_iff_slot_while_calls_return (H : Header) (app : App) (s : State)
    (hs : Reachable H app s) :
    (s.trace_lock = true ↔ s.current_channel ≠ none) := by
  induction hs with
  | init => simp [init_state]
  | step op s s' _ hstep ih => exact step_preserves_lock_iff H app op s s' ih hstep

theorem lock_iff_slot_while_calls_return_example :
    run H1 app0 [.set_sink 1 (some (.sink 7)), .begin_block 1] (init_state H1) = .ok st_open
      ∧ (st_open.trace_lock = true ↔ st_open.current_channel ≠ none) :=
  ⟨rfl, lock_iff_slot_while_calls_return H1 app0 st_open
    (reachable_of_run H1 app0 [.set_sink 1 (some (.sink 7)), .begin_block 1] _ _
      Reachable.init rfl)⟩

/-- C18. From the initial state, a call of `OSSL_trace_set_suffix`,
`OSSL_trace_set_prefix` or `OSSL_trace_set_callback` with the category -1
stores outside `trace_channels`: the three setters have no range check, so
with arbitrary arguments the table is not the only thing they write, and the
variables next to it are not protected.  `OSSL_trace_set_channel` with the
same category returns with the state unchanged. -/
theorem out_of_range_setter_leaves_table :
    step H1 app0 (.set_suf true (-1) (some "x")) (init_state H1) = .error .out_of_bounds
      ∧ step H1 app0 (.set_pre true (-1) (some "x")) (init_state H1) = .error .out_of_bounds
      ∧ step H1 app0 (.set_callback (some 9) true (-1) (some 3) 5) (init_state H1)
          = .error .out_of_bounds
      ∧ step H1 app0 (.set_suf true 2 (some "x")) (init_state H1) = .error .out_of_bounds
      ∧ step H1 app0 (.set_sink (-1) (some (.sink 8))) (init_state H1) = .ok (init_state H1)
      ∧ (init_state H1).current_channel = none ∧ (init_state H1).trace_lock = false := by
  refine ⟨rfl, rfl, rfl, rfl, rfl, rfl, rfl⟩

theorem BIO_free_events (p : BIO) (s : State) :
    (BIO_free (some p) s).events = s.events ++ release_events p := by
  cases p with
  | sink a => rfl
  | trace a ctx =>
    cases ctx with
    | none => rfl
    | some d => simp [BIO_free, trace_free, BIO_get_data, State.emit, release_events]

theorem released_release_events (p b : BIO) :
    released b (release_events p) = if p = b then 1 else 0 := by
  cases p with
  | sink a =>
    by_cases h : BIO.sink a = b
    · subst h
      simp [released, release_events]
    · simp [released, release_events, h, List.count_cons]
  | trace a ctx =>
    cases ctx with
    | none =>
      by_cases h : BIO.trace a none = b
      · subst h
        simp [released, release_events]
      · simp [released, release_events, h, List.count_cons]
    | some d =>
      by_cases h : BIO.trace a (some d) = b
      · subst h
        simp [released, release_events, List.count_cons]
      · simp [released, release_events, h, List.count_cons]

/-- C19, as the claim states it, fails: when the previous sink of category 1
is also stored for category 0, `OSSL_trace_set_channel` on category 1 with a
new sink that is stored nowhere releases the previous sink, and category 0
still holds it: a sink stored in the table has been released. -/
theorem set_channel_alias_counterexample :
    sink_of st4 1 = some (.sink 4)
      ∧ BIO.sink 8 ≠ BIO.sink 4
      ∧ (∀ j, j ≠ 1 → sink_of st4 j ≠ some (.sink 8))
      ∧ OSSL_trace_set_channel H1 1 (some (.sink 8)) st4
          = .ok (1, ⟨[⟨.t_channel, some (.sink 4), none, none⟩,
                     ⟨.t_channel, some (.sink 8), some "p", some "q"⟩],
                    none, false, [.bio_free (.sink 4)]⟩)
      ∧ ¬ (∀ s', OSSL_trace_set_channel H1 1 (some (.sink 8)) st4 = .ok (1, s') →
            ∀ j x, sink_of s' j = some x → released x (s'.events.drop st4.events.length) = 0) := by
  refine ⟨rfl, by decide, ?_, rfl, ?_⟩
  · intro j hj
    by_cases h0 : j = 0
    · subst h0; decide
    · have hcases : j < 0 ∨ 2 ≤ j := by omega
      have herr : channel_at st4 j = .error .out_of_bounds := by
        rcases hcases with h | h
        · exact table_at_neg _ h
        · exact table_at_ge _ (by simpa [st4] using h)
      simp [sink_of, herr]
  · intro h
    have h2 := h _ rfl 0 (.sink 4) rfl
    revert h2
    decide

/-- C19, amended. For an in-range category `c` that holds the sink `p`, and a
new sink `b` different from `p`, where neither `p` nor `b` is stored for any
other category: `OSSL_trace_set_channel` returns 1, releases `p` exactly once
and `b` not at all, stores `b` with the type `t_channel`, and leaves the
prefix and the suffix of `c` as they were; no sink that the table holds
afterwards has been released by the call. -/
theorem set_channel_releases_previous (H : Header) (s : State) (c : Int)
    (ty : ChannelType) (p b : BIO) (P S : Option String)
    (h0 : 0 ≤ c) (h1 : c < H.OSSL_TRACE_CATEGORY_NUM)
    (hr : channel_at s c = .ok ⟨ty, some p, P, S⟩)
    (hne : b ≠ p)
    (hp : ∀ j, j ≠ c → sink_of s j ≠ some p)
    (_hb : ∀ j, j ≠ c → sink_of s j ≠ some b) :
    ∃ s', OSSL_trace_set_channel H c (some b) s = .ok (1, s')
      ∧ channel_at s' c = .ok ⟨.t_channel, some b, P, S⟩
      ∧ s'.events = s.events ++ release_events p
      ∧ released p (release_events p) = 1
      ∧ released b (release_events p) = 0
      ∧ (∀ j x, sink_of s' j = some x → released x (release_events p) = 0) := by
  refine ⟨_, set_channel_in_range H s c _ (some b) h0 h1 hr, ?_, ?_, ?_, ?_, ?_⟩
  · exact sink_of_set_same s _ c _ _ hr rfl
  · exact BIO_free_events p s
  · simp [released_release_events]
  · simp [released_release_events, Ne.symm hne]
  · intro j x hx
    rw [released_release_events]
    by_cases hj : j = c
    · subst hj
      simp only [sink_of] at hx
      rw [sink_of_set_same s _ j _ _ hr rfl] at hx
      simp only [set_channel_record, Option.some.injEq] at hx
      subst hx
      simp [Ne.symm hne]
    · have hpj := hp j hj
      simp only [sink_of, channel_at] at hx hpj
      rw [table_at_set_other _ _ _ _ hj h0] at hx
      rw [hx] at hpj
      simp only [ne_eq, Option.some.injEq] at hpj
      simp [Ne.symm hpj]

theorem set_channel_releases_previous_witness :
    ∃ s', OSSL_trace_set_channel H1 1 (some (.sink 8)) st1 = .ok (1, s')
      ∧ channel_at s' 1 = .ok ⟨.t_channel, some (.sink 8), some "[TRACE]", some "[END]"⟩
      ∧ s'.events = st1.events ++ release_events (.sink 7) := by
  have hfree : ∀ (x : BIO) (j : Int), j ≠ 1 → sink_of st1 j ≠ some x := by
    intro x j hj
    by_cases h0 : j = 0
    · subst h0; simp [sink_of, channel_at, table_at, st1]
    · have hcases : j < 0 ∨ 2 ≤ j := by omega
      have herr : channel_at st1 j = .error .out_of_bounds := by
        rcases hcases with h | h
        · exact table_at_neg _ h
        · exact table_at_ge _ (by simpa [st1] using h)
      simp [sink_of, herr]
  obtain ⟨s', h1, h2, h3, -⟩ := set_channel_releases_previous H1 st1 1 .t_channel (.sink 7)
    (.sink 8) (some "[TRACE]") (some "[END]") (by decide) (by decide) rfl (by decide)
    (hfree _) (hfree _)
  exact ⟨s', h1, h2, h3⟩

theorem unchanged_outside_set (c : Int) (s s' : State) (x : Channel) (h0 : 0 ≤ c)
    (ht : s'.trace_channels = s.trace_channels.set c.toNat x)
    (hc : s'.current_channel = s.current_channel) (hl : s'.trace_lock = s.trace_lock) :
    unchanged_outside c s s' := by
  refine ⟨fun j hj => ?_, hc, hl⟩
  simp only [channel_at]
  rw [ht, table_at_set_other _ _ _ _ hj h0]

/-- C20. For an in-range category `c` whose record is `r`, each of the four
configuration calls returns and leaves the record of every other category, the
active-block slot and the lock as they were.  `OSSL_trace_set_prefix` changes
at most the prefix of `r`, `OSSL_trace_set_suffix` at most its suffix,
`OSSL_trace_set_channel` and `OSSL_trace_set_callback` at most its sink and
its type. -/
theorem configuration_is_local (H : Header) (s : State) (c : Int) (r : Channel)
    (h0 : 0 ≤ c) (h1 : c < H.OSSL_TRACE_CATEGORY_NUM)
    (hr : channel_at s c = .ok r) :
    (∀ channel, ∃ ret s', OSSL_trace_set_channel H c channel s = .ok (ret, s')
        ∧ unchanged_outside c s s'
        ∧ ∃ ty bio, channel_at s' c = .ok { r with type := ty, bio := bio })
      ∧ (∀ bio_new zalloc_ok callback data, ∃ ret s',
          OSSL_trace_set_callback bio_new zalloc_ok c callback data s = .ok (ret, s')
            ∧ unchanged_outside c s s'
            ∧ ∃ ty bio, channel_at s' c = .ok { r with type := ty, bio := bio })
      ∧ (∀ strdup_ok text, ∃ ret s',
          OSSL_trace_set_prefix strdup_ok c text s = .ok (ret, s')
            ∧ unchanged_outside c s s'
            ∧ ∃ p, channel_at s' c = .ok { r with prefix_ := p })
      ∧ (∀ strdup_ok text, ∃ ret s',
          OSSL_trace_set_suffix strdup_ok c text s = .ok (ret, s')
            ∧ unchanged_outside c s s'
            ∧ ∃ p, channel_at s' c = .ok { r with suffix := p }) := by
  refine ⟨fun ch => ⟨_, _, set_channel_in_range H s c r ch h0 h1 hr, ?_, ?_⟩,
    fun bn z cb d => ⟨_, _, set_callback_in_range s c r bn z cb d hr, ?_, ?_⟩,
    fun ok t => ⟨_, _, set_prefix_in_range s c r ok t hr, ?_, ?_⟩,
    fun ok t => ⟨_, _, set_suffix_in_range s c r ok t hr, ?_, ?_⟩⟩
  · exact unchanged_outside_set c s _ _ h0 rfl (BIO_free_frame r.bio s).2.1
      (BIO_free_frame r.bio s).2.2
  · cases ch with
    | none => exact ⟨r.type, none, sink_of_set_same s _ c r _ hr rfl⟩
    | some b => exact ⟨.t_channel, some b, sink_of_set_same s _ c r _ hr rfl⟩
  · exact unchanged_outside_set c s _ _ h0 rfl (BIO_free_frame r.bio s).2.1
      (BIO_free_frame r.bio s).2.2
  · refine ⟨(set_callback_record r bn z c cb d).type, (set_callback_record r bn z c cb d).bio, ?_⟩
    rw [sink_of_set_same s _ c r _ hr rfl]
    cases cb <;> cases bn <;> cases z <;> rfl
  · exact unchanged_outside_set c s _ _ h0 rfl rfl rfl
  · exact ⟨_, sink_of_set_same s _ c r _ hr rfl⟩
  · exact unchanged_outside_set c s _ _ h0 rfl rfl rfl
  · exact ⟨_, sink_of_set_same s _ c r _ hr rfl⟩

theorem configuration_is_local_witness :
    ∃ ret s', OSSL_trace_set_prefix true 1 (some "new") st1 = .ok (ret, s')
      ∧ unchanged_outside 1 st1 s'
      ∧ ∃ p, channel_at s' 1 = .ok ⟨.t_channel, some (.sink 7), p, some "[END]"⟩ :=
  (configuration_is_local H1 st1 1 ⟨.t_channel, some (.sink 7), some "[TRACE]", some "[END]"⟩
    (by decide) (by decide) rfl).2.2.1 true (some "new")

theorem freed_texts_append (xs ys : List Event) :
    freed_texts (xs ++ ys) = freed_texts xs ++ freed_texts ys := by
  induction xs with
  | nil => simp [freed_texts]
  | cons e es ih => cases e <;> simp [freed_texts, ih]

theorem freed_texts_release (p : BIO) : freed_texts (release_events p) = [] := by
  cases p with
  | sink a => rfl
  | trace a ctx => cases ctx <;> rfl

theorem set_channel_keeps_texts (H : Header) (c : Int) (ch : Option BIO) (s s' : State)
    (ret : Int) (h : OSSL_trace_set_channel H c ch s = .ok (ret, s')) :
    (∀ j, prefix_of s' j = prefix_of s j ∧ suffix_of s' j = suffix_of s j)
      ∧ freed_texts s'.events = freed_texts s.events := by
  by_cases hg : c < 0 ∨ c ≥ H.OSSL_TRACE_CATEGORY_NUM
  · simp only [OSSL_trace_set_channel, hg, if_true, Except.ok.injEq, Prod.mk.injEq] at h
    rw [← h.2]
    exact ⟨fun j => ⟨rfl, rfl⟩, rfl⟩
  · cases hr : channel_at s c with
    | error e => simp [OSSL_trace_set_channel, hg, hr] at h
    | ok r =>
      have h0 : 0 ≤ c := by omega
      rw [set_channel_in_range H s c r ch h0 (by omega) hr] at h
      simp only [Except.ok.injEq, Prod.mk.injEq] at h
      obtain ⟨-, h⟩ := h
      subst h
      constructor
      · intro j
        by_cases hj : j = c
        · subst hj
          simp only [prefix_of, suffix_of]
          rw [sink_of_set_same s _ j r _ hr rfl, hr]
          cases ch <;> exact ⟨rfl, rfl⟩
        · simp only [prefix_of, suffix_of, channel_at]
          rw [table_at_set_other _ _ _ _ hj h0]
          exact ⟨rfl, rfl⟩
      · cases hb : r.bio with
        | none => rfl
        | some p =>
          show freed_texts (BIO_free (some p) s).events = _
          rw [BIO_free_events, freed_texts_append, freed_texts_release, List.append_nil]

theorem clear_all_keeps_texts (H : Header) (l : List Int) (s s' : State)
    (h : l.foldlM (fun st category => do
        let (_, st') ← OSSL_trace_set_channel H category none st
        pure st') s = .ok s') :
    (∀ j, prefix_of s' j = prefix_of s j ∧ suffix_of s' j = suffix_of s j)
      ∧ freed_texts s'.events = freed_texts s.events := by
  induction l generalizing s with
  | nil =>
    simp only [List.foldlM, pure_eq_ok, Except.ok.injEq] at h
    rw [← h]
    exact ⟨fun j => ⟨rfl, rfl⟩, rfl⟩
  | cons n l ih =>
    rw [List.foldlM_cons] at h
    cases h1 : OSSL_trace_set_channel H n none s with
    | error e => simp [h1] at h
    | ok p =>
      obtain ⟨ret, s1⟩ := p
      simp only [h1, bind_ok] at h
      obtain ⟨a1, a2⟩ := set_channel_keeps_texts H n none s s1 ret h1
      obtain ⟨b1, b2⟩ := ih s1 h
      exact ⟨fun j => ⟨(b1 j).1.trans (a1 j).1, (b1 j).2.trans (a1 j).2⟩, b2.trans a2⟩

theorem cleanup_never_frees_text (H : Header) (s s' : State)
    (h : ossl_trace_cleanup H s = .ok s') :
    (∀ j, prefix_of s' j = prefix_of s j ∧ suffix_of s' j = suffix_of s j)
      ∧ freed_texts s'.events = freed_texts s.events :=
  clear_all_keeps_texts H _ s s' h

end OsslTrace
